import Mathlib

/-!
Verification of the galaxy-backend chat subsystem.

The definitions below are a shallow embedding of the repository's chat
controller (`src/controllers/chat.ts`), its mongoose chat models
(`src/models/chat.ts`, both revisions), and the two socket-server
implementations (`src/services/socketsever.ts`, which `index.ts` wires in,
and the jwt-authenticated revision found in the unnamed sources).
Persistence is modelled as an association list from document id to document;
`await doc.save()` is modelled as replacing the entry; socket emits are
modelled as explicit trace events so that ordering of commit and broadcast
is visible.
-/

/-- JavaScript string falsiness for an optional string field:
`!x` is true when the field is absent or the empty string. -/
def falsyS (s : Option String) : Bool := s.getD "" = ""

/-- `Model.findById` over an association-list store: first entry wins. -/
def lookupKV {α : Type} : List (String × α) → String → Option α
  | [], _ => none
  | (k, v) :: rest, key => if k = key then some v else lookupKV rest key

/-- `await doc.save()` for an already-persisted document: replace the entry. -/
def saveKV {α : Type} : List (String × α) → String → α → List (String × α)
  | [], _, _ => []
  | (k, v) :: rest, key, v' =>
      if k = key then (k, v') :: saveKV rest key v' else (k, v) :: saveKV rest key v'

/-- The ids present in a store. -/
def keysOf {α : Type} (s : List (String × α)) : List String := s.map Prod.fst

theorem lookupKV_saveKV_self {α : Type} (s : List (String × α)) (key : String) (v v' : α)
    (h : lookupKV s key = some v) : lookupKV (saveKV s key v') key = some v' := by
  induction s with
  | nil => simp [lookupKV] at h
  | cons hd tl ih =>
    obtain ⟨k, w⟩ := hd
    by_cases hk : k = key
    · subst hk
      simp [lookupKV, saveKV]
    · simp [lookupKV, saveKV, hk] at h ⊢
      exact ih h

theorem lookupKV_saveKV_ne {α : Type} (s : List (String × α)) (key key' : String) (v' : α)
    (h : key' ≠ key) : lookupKV (saveKV s key v') key' = lookupKV s key' := by
  induction s with
  | nil => simp [saveKV]
  | cons hd tl ih =>
    obtain ⟨k, w⟩ := hd
    by_cases hk : k = key
    · subst hk
      simp [lookupKV, saveKV, Ne.symm h, ih]
    · simp only [saveKV, if_neg hk, lookupKV]
      by_cases hk' : k = key'
      · simp [hk']
      · simp [hk', ih]

theorem lookupKV_append_some {α : Type} (s l : List (String × α)) (key : String) (v : α)
    (h : lookupKV s key = some v) : lookupKV (s ++ l) key = some v := by
  induction s with
  | nil => simp [lookupKV] at h
  | cons hd tl ih =>
    obtain ⟨k, w⟩ := hd
    by_cases hk : k = key
    · simp_all [lookupKV]
    · simp [lookupKV, hk] at h ⊢
      exact ih h

theorem mem_keysOf_of_lookupKV {α : Type} (s : List (String × α)) (key : String) (v : α)
    (h : lookupKV s key = some v) : key ∈ keysOf s := by
  induction s with
  | nil => simp [lookupKV] at h
  | cons hd tl ih =>
    obtain ⟨k, w⟩ := hd
    by_cases hk : k = key
    · simp [keysOf, hk]
    · simp [lookupKV, hk] at h
      simp [keysOf]
      right
      have := ih h
      simpa [keysOf] using this

theorem keysOf_saveKV {α : Type} (s : List (String × α)) (key : String) (v' : α) :
    keysOf (saveKV s key v') = keysOf s := by
  induction s with
  | nil => simp [saveKV]
  | cons hd tl ih =>
    obtain ⟨k, w⟩ := hd
    by_cases hk : k = key
    · simp [saveKV, hk, keysOf] at ih ⊢
      exact ih
    · simp [saveKV, hk, keysOf] at ih ⊢
      exact ih

theorem lookupKV_append_single_none {α : Type} (s : List (String × α)) (k key : String) (v : α)
    (h : lookupKV s key = none) :
    lookupKV (s ++ [(k, v)]) key = if k = key then some v else none := by
  induction s with
  | nil => simp [lookupKV]
  | cons hd tl ih =>
    obtain ⟨k0, w⟩ := hd
    by_cases hk : k0 = key
    · simp [lookupKV, hk] at h
    · simp [lookupKV, hk] at h ⊢
      exact ih h

/-! ## Model A: the HTTP chat controller (`src/controllers/chat.ts`)
with the canonical chat schema of `src/models/chat.ts` (first revision):
`sender ∈ {user, admin, system}`, per-message `read` flag, attachments. -/

/-- Message sender enum of the canonical chat schema. -/
inductive Sender
  | user
  | admin
  | system
deriving DecidableEq, Repr

/-- Attachment subdocument: raw bytes plus metadata. -/
structure Attachment where
  data : List Nat
  contentType : String
  filename : String
  size : Nat
deriving DecidableEq, Repr

/-- Message subdocument of the canonical chat schema. -/
structure Message where
  sender : Sender
  content : String
  timestamp : Nat
  read : Bool
  attachments : List Attachment
deriving DecidableEq, Repr

/-- Chat document of the canonical schema (mongoose timestamps collapsed
to a single `updatedAt` counter). -/
structure Chat where
  customerId : String
  adminId : Option String
  orderId : Option String
  subject : Option String
  isOrderChat : Bool
  messages : List Message
  updatedAt : Nat
deriving DecidableEq, Repr

/-- Order document, reduced to the fields the chat controller reads. -/
structure Order where
  customerId : String
  orderNumber : String
  status : String
deriving DecidableEq, Repr

abbrev ChatStore : Type := List (String × Chat)
abbrev OrderStore : Type := List (String × Order)

/-- Errors thrown / responded by the controller, tagged with the source's
message strings. -/
inductive Err
  | notFound (what : String)
  | unauthorized (what : String)
  | invalidArgument (what : String)
deriving DecidableEq, Repr

/-- `ChatModel.findById`. -/
def findById (store : ChatStore) (chatId : String) : Option Chat := lookupKV store chatId

/-- `ChatModel.findOne({ orderId, isOrderChat: true })`. -/
def findOrderChat : ChatStore → String → Option (String × Chat)
  | [], _ => none
  | (i, c) :: rest, oid =>
      if c.orderId = some oid ∧ c.isOrderChat then some (i, c) else findOrderChat rest oid

/-- Save an existing chat back, or insert it when its id is new
(`new ChatModel(...).save()` versus `chat.save()`). -/
def upsertChat (store : ChatStore) (chatId : String) (chat : Chat) : ChatStore :=
  if (findById store chatId).isSome then saveKV store chatId chat else store ++ [(chatId, chat)]

/-- `validateChatAccess` (chat.ts lines 25-34): find the chat, grant when the
caller is an admin or owns the chat, otherwise throw. -/
def validateChatAccess (store : ChatStore) (chatId userId role : String) : Except Err Chat :=
  match findById store chatId with
  | none => .error (.notFound "Chat not found")
  | some chat =>
      if role = "admin" ∨ chat.customerId = userId then .ok chat
      else .error (.unauthorized "Unauthorized access to this chat")

/-- `validateOrderAccess` (chat.ts lines 16-23): the `role` argument is
accepted but never consulted — only the owning customer passes. -/
def validateOrderAccess (orders : OrderStore) (orderId userId role : String) :
    Except Err Order :=
  match lookupKV orders orderId with
  | none => .error (.notFound "Order not found")
  | some order =>
      if order.customerId ≠ userId then .error (.unauthorized "Unauthorized access to this order")
      else .ok order

/-- `createMessage` (chat.ts lines 36-51). -/
def createMessage (sender : Sender) (content : String) (attachments : List Attachment)
    (now : Nat) : Message :=
  { sender := sender, content := content, timestamp := now, read := false,
    attachments := attachments }

/-- An uploaded multipart file as multer hands it to the handler. -/
structure UploadFile where
  buffer : List Nat
  mimetype : String
  originalname : String
  size : Nat
deriving DecidableEq, Repr

/-- The multer instance of chat.ts lines 7-14: `fileSize: 5*1024*1024,
files: 3`. Exceeding either limit aborts the request before the handler
runs, so nothing from the request is persisted. -/
def multerCheck (files : List UploadFile) : Except Err (List UploadFile) :=
  if files.length > 3 then .error (.invalidArgument "LIMIT_FILE_COUNT")
  else if files.any (fun f => f.size > 5 * 1024 * 1024) then
    .error (.invalidArgument "LIMIT_FILE_SIZE")
  else .ok files

/-- Mongo `$slice: [-(page*limit), limit]` applied to the message log
(negative skip counts from the end, clamped at the start). -/
def sliceMessages (msgs : List Message) (page limit : Nat) : List Message :=
  (msgs.drop (msgs.length - page * limit)).take limit

/-- Socket emissions performed by the controller, in program order. -/
inductive TraceEvent
  | saveEvt (chatId : String) (chat : Chat)
  | newMessageEvt (room : String) (sender : Sender) (content : String) (timestamp : Nat)
  | messagesReadEvt (room : String) (readerId readerRole : String)
  | newChatEvt (room : String) (chatId : String)
deriving DecidableEq, Repr

/-- Room key used by the controller: `order-<orderId>` for order chats,
else `chat-<chatId>`. -/
def roomNameOf (chatId : String) (chat : Chat) : String :=
  match chat.orderId with
  | some oid => if chat.isOrderChat then "order-" ++ oid else "chat-" ++ chatId
  | none => "chat-" ++ chatId

/-- `getChatById` (chat.ts lines 94-135): access check, then return the
paginated message window. Order-info enrichment of the response is omitted
as presentational. -/
def getChatById (store : ChatStore) (userId role : String) (chatId : Option String)
    (page limit : Nat) : Except Err Chat :=
  match chatId with
  | none => .error (.invalidArgument "Chat ID is required")
  | some cid =>
      match validateChatAccess store cid userId role with
      | .error e => .error e
      | .ok chat => .ok { chat with messages := sliceMessages chat.messages page limit }

/-- `sendMessageToChatById` (chat.ts lines 138-204): multer admission runs
first; then field validation, access check, append, save, and only then the
`new-message` emit. -/
def sendMessageToChatById (store : ChatStore) (userId role : String) (chatId : Option String)
    (content : Option String) (files : List UploadFile) (now : Nat) :
    Except Err (ChatStore × List TraceEvent) :=
  match multerCheck files with
  | .error e => .error e
  | .ok files =>
      match chatId with
      | none => .error (.invalidArgument "Chat ID is required")
      | some cid =>
          if falsyS content ∧ files.isEmpty then
            .error (.invalidArgument "Message content or attachments are required")
          else
            match validateChatAccess store cid userId role with
            | .error e => .error e
            | .ok chat =>
                let attachments := files.map fun f =>
                  Attachment.mk f.buffer f.mimetype f.originalname f.size
                let sender := if role = "admin" then Sender.admin else Sender.user
                let newMessage := createMessage sender (content.getD "") attachments now
                let chat :=
                  if role = "admin" ∧ chat.adminId = none then
                    { chat with adminId := some userId }
                  else chat
                let chat' := { chat with messages := chat.messages ++ [newMessage],
                                         updatedAt := now }
                let store' := saveKV store cid chat'
                .ok (store',
                  [.saveEvt cid chat',
                   .newMessageEvt (roomNameOf cid chat') newMessage.sender newMessage.content
                     newMessage.timestamp])

/-- `getChatByOrder` (chat.ts lines 207-254): order-ownership check first;
returns the existing order chat or creates an empty one. -/
def getChatByOrder (store : ChatStore) (orders : OrderStore) (userId role : String)
    (orderId : Option String) (page limit : Nat) (freshId : String) (now : Nat) :
    Except Err (ChatStore × Chat) :=
  if falsyS orderId then .error (.invalidArgument "Order ID is required")
  else
    let oid := orderId.getD ""
    match validateOrderAccess orders oid userId role with
    | .error e => .error e
    | .ok order =>
        match findOrderChat store oid with
        | some pair =>
            .ok (store, { pair.2 with messages := sliceMessages pair.2.messages page limit })
        | none =>
            let newChat : Chat :=
              { customerId := order.customerId, adminId := none, orderId := some oid,
                subject := none, isOrderChat := true, messages := [], updatedAt := now }
            .ok (store ++ [(freshId, newChat)], newChat)

/-- `sendMessage` (chat.ts lines 344-387): requires orderId and content,
order-ownership check, find-or-create the order chat, lazy admin
assignment, append, save, emit. -/
def sendMessage (store : ChatStore) (orders : OrderStore) (userId role : String)
    (orderId content : Option String) (freshId : String) (now : Nat) :
    Except Err (ChatStore × List TraceEvent) :=
  if falsyS orderId ∨ falsyS content then
    .error (.invalidArgument "Order ID and message content are required")
  else
    let oid := orderId.getD ""
    match validateOrderAccess orders oid userId role with
    | .error e => .error e
    | .ok order =>
        let found := findOrderChat store oid
        let cid := match found with | some pair => pair.1 | none => freshId
        let chat := match found with
          | some pair => pair.2
          | none =>
              { customerId := order.customerId, adminId := none, orderId := some oid,
                subject := none, isOrderChat := true, messages := [], updatedAt := now }
        let chat :=
          if role = "admin" ∧ chat.adminId = none then { chat with adminId := some userId }
          else chat
        let sender := if role = "admin" then Sender.admin else Sender.user
        let newMessage := createMessage sender (content.getD "") [] now
        let chat' := { chat with messages := chat.messages ++ [newMessage], updatedAt := now }
        let store' := upsertChat store cid chat'
        .ok (store',
          [.saveEvt cid chat',
           .newMessageEvt ("order-" ++ oid) newMessage.sender newMessage.content
             newMessage.timestamp])

/-- `sendMessageWithAttachment` (chat.ts lines 257-315): like `sendMessage`
but with multer admission and attachments, and without the lazy admin
assignment (absent in this handler). -/
def sendMessageWithAttachment (store : ChatStore) (orders : OrderStore) (userId role : String)
    (orderId content : Option String) (files : List UploadFile) (freshId : String) (now : Nat) :
    Except Err (ChatStore × List TraceEvent) :=
  match multerCheck files with
  | .error e => .error e
  | .ok files =>
      if falsyS orderId then .error (.invalidArgument "Order ID is required")
      else
        let oid := orderId.getD ""
        match validateOrderAccess orders oid userId role with
        | .error e => .error e
        | .ok order =>
            let found := findOrderChat store oid
            let cid := match found with | some pair => pair.1 | none => freshId
            let chat := match found with
              | some pair => pair.2
              | none =>
                  { customerId := order.customerId, adminId := none, orderId := some oid,
                    subject := none, isOrderChat := true, messages := [], updatedAt := now }
            let attachments := files.map fun f =>
              Attachment.mk f.buffer f.mimetype f.originalname f.size
            let sender := if role = "admin" then Sender.admin else Sender.user
            let newMessage := createMessage sender (content.getD "") attachments now
            let chat' := { chat with messages := chat.messages ++ [newMessage],
                                     updatedAt := now }
            let store' := upsertChat store cid chat'
            .ok (store',
              [.saveEvt cid chat',
               .newMessageEvt ("order-" ++ oid) newMessage.sender newMessage.content
                 newMessage.timestamp])

/-- `markMessagesAsRead` (chat.ts lines 422-457): access check, flip the
`read` flag of every message sent by the opposite role, save, then emit
`messages-read` unconditionally. -/
def markMessagesAsRead (store : ChatStore) (userId role : String) (chatId : Option String)
    (now : Nat) : Except Err (ChatStore × List TraceEvent) :=
  match chatId with
  | none => .error (.invalidArgument "Chat ID is required")
  | some cid =>
      match validateChatAccess store cid userId role with
      | .error e => .error e
      | .ok chat =>
          let senderType := if role = "admin" then Sender.user else Sender.admin
          let msgs := chat.messages.map fun m =>
            if m.sender = senderType then { m with read := true } else m
          let chat' := { chat with messages := msgs, updatedAt := now }
          let store' := saveKV store cid chat'
          .ok (store',
            [.saveEvt cid chat',
             .messagesReadEvt (roomNameOf cid chat') userId role])

/-- `createGeneralChat` (chat.ts lines 54-91). -/
def createGeneralChat (store : ChatStore) (userId : String) (subject message : Option String)
    (freshId : String) (now : Nat) : Except Err (ChatStore × List TraceEvent) :=
  if falsyS message then .error (.invalidArgument "Initial message is required")
  else
    let chat : Chat :=
      { customerId := userId, adminId := none, orderId := none,
        subject := some (if falsyS subject then "General Inquiry" else subject.getD ""),
        isOrderChat := false,
        messages := [createMessage Sender.user (message.getD "") [] now],
        updatedAt := now }
    .ok (store ++ [(freshId, chat)], [.saveEvt freshId chat, .newChatEvt "admin-room" freshId])

/-! ## Model B: the jwt-authenticated socket server (the revision of
`setupSocketServer` in the unnamed sources that persists through
`ChatModel`) together with the chat schema revision it targets
(`senderId`/`senderRole`, `lastMessage`, `open`). The `open` field is
spelled `openFlag` because `open` is reserved in Lean. -/

/-- Message subdocument of the `senderId`/`senderRole` chat schema. -/
structure SMessage where
  senderId : String
  senderRole : String
  message : String
  timestamp : Nat
  read : Bool
deriving DecidableEq, Repr

/-- Chat document of that schema: always order-bound, with a `lastMessage`
timestamp and an `open` flag (default `true`). -/
structure SChat where
  orderId : String
  customerId : String
  messages : List SMessage
  lastMessage : Nat
  openFlag : Bool
deriving DecidableEq, Repr

abbrev SStore : Type := List (String × SChat)

/-- The identity placed on `socket.data.user` by the jwt middleware. -/
structure SUser where
  id : String
  name : String
  role : String
deriving DecidableEq, Repr

/-- Client payload of the `send-message` event. -/
structure SMsgData where
  chatId : Option String
  message : Option String
  orderId : Option String
  customerId : Option String
deriving DecidableEq, Repr

/-- Effects of a socket handler, in program order. -/
inductive SEvent
  | errorEvt (msg : String)
  | saveEvt (chatId : String) (chat : SChat)
  | newMessageEvt (room chatId message senderId senderRole : String)
  | notificationEvt (room : String)
  | messageSentEvt
  | messagesReadEvt (room : String)
  | markedReadEvt (chatId : String)
deriving DecidableEq, Repr

/-- The `send-message` handler: field validation, chat lookup, the
customer-ownership security check, append, `lastMessage` refresh, reopen of
a closed chat for non-admin senders, save, then broadcast and
notifications. -/
def socketSendMessage (store : SStore) (u : SUser) (d : SMsgData) (now : Nat) :
    SStore × List SEvent :=
  if falsyS d.chatId ∨ falsyS d.message ∨ falsyS d.orderId then
    (store, [.errorEvt "Invalid message data"])
  else
    let cid := d.chatId.getD ""
    match lookupKV store cid with
    | none => (store, [.errorEvt "Chat not found"])
    | some chat =>
        if u.role ≠ "admin" ∧ chat.customerId ≠ u.id then
          (store, [.errorEvt "Unauthorized to send to this chat"])
        else
          let msg : SMessage :=
            { senderId := u.id,
              senderRole := if u.role = "admin" then "admin" else "user",
              message := d.message.getD "", timestamp := now, read := false }
          let chat' :=
            { chat with
                messages := chat.messages ++ [msg],
                lastMessage := now,
                openFlag := if ¬chat.openFlag ∧ u.role ≠ "admin" then true else chat.openFlag }
          let store' := saveKV store cid chat'
          let oid := d.orderId.getD ""
          let notif :=
            if u.role ≠ "admin" then [SEvent.notificationEvt "admin-room"]
            else if ¬falsyS d.customerId then
              [SEvent.notificationEvt ("user-" ++ d.customerId.getD "")]
            else []
          (store',
            [SEvent.saveEvt cid chat',
             SEvent.newMessageEvt ("order-" ++ oid) cid (d.message.getD "") u.id u.role]
            ++ notif ++ [SEvent.messageSentEvt])

/-- The array update of the `mark-as-read` handler: set `read := true` on
every element whose `senderRole` matches the filter and which is unread. -/
def markReadUpdate (msgs : List SMessage) (mark : String) : List SMessage :=
  msgs.map fun m => if m.senderRole = mark ∧ m.read = false then { m with read := true } else m

/-- Number of messages the update would flip. -/
def countUnreadFrom (msgs : List SMessage) (mark : String) : Nat :=
  (msgs.filter fun m => m.senderRole = mark ∧ m.read = false).length

/-- `ChatModel.updateOne({_id}, {$set ...}, {arrayFilters ...})`:
`modifiedCount` counts modified documents, so it is 1 when at least one
array element changed and 0 otherwise — never the per-message flip count. -/
def updateOneMarkRead (store : SStore) (cid mark : String) : SStore × Nat :=
  match lookupKV store cid with
  | none => (store, 0)
  | some chat =>
      let msgs' := markReadUpdate chat.messages mark
      if msgs' = chat.messages then (store, 0)
      else (saveKV store cid { chat with messages := msgs' }, 1)

/-- The `mark-as-read` handler: validation, lookup, security check, the
`updateOne` above, a `messages-read` broadcast only when something was
modified, and a `marked-read` success ack in every non-error case. -/
def socketMarkAsRead (store : SStore) (u : SUser) (chatId : Option String) :
    SStore × List SEvent :=
  if falsyS chatId then (store, [.errorEvt "Chat ID is required"])
  else
    let cid := chatId.getD ""
    match lookupKV store cid with
    | none => (store, [.errorEvt "Chat not found"])
    | some chat =>
        if u.role ≠ "admin" ∧ chat.customerId ≠ u.id then
          (store, [.errorEvt "Unauthorized to access this chat"])
        else
          let mark := if u.role = "admin" then "user" else "admin"
          let r := updateOneMarkRead store cid mark
          (r.1,
            (if r.2 > 0 then [SEvent.messagesReadEvt ("order-" ++ chat.orderId)] else [])
            ++ [SEvent.markedReadEvt cid])

/-! ## Room membership and broadcast primitives of the gateway. -/

/-- Joined rooms per socket id. -/
abbrev RoomMap : Type := List (String × List String)

/-- `socket.join(room)`. -/
def joinRoom : RoomMap → String → String → RoomMap
  | [], sid, room => [(sid, [room])]
  | (s, rs) :: rest, sid, room =>
      if s = sid then (s, room :: rs) :: rest else (s, rs) :: joinRoom rest sid room

/-- The sockets currently joined to a room. -/
def roomMembers (rooms : RoomMap) (room : String) : List String :=
  (rooms.filter fun p => p.2.any fun x => decide (x = room)).map Prod.fst

/-- `io.to(room).emit(...)`: delivered to every member, the sender
included when it is a member. -/
def broadcastAll (rooms : RoomMap) (room : String) : List String :=
  roomMembers rooms room

/-- `socket.to(room).emit(...)`: delivered to every member except the
emitting socket. -/
def broadcastExceptSender (rooms : RoomMap) (room : String) (sid : String) : List String :=
  (roomMembers rooms room).filter fun x => decide (x ≠ sid)

/-- `join-order-chat` in the jwt socket server: no access check beyond a
truthiness test on the client-supplied order id. -/
def joinOrderChat (rooms : RoomMap) (sid : String) (orderId : String) : RoomMap :=
  if orderId = "" then rooms else joinRoom rooms sid ("order-" ++ orderId)

/-- Client payload of a `typing` event. -/
structure TypingData where
  chatId : Option String
  orderId : Option String
  isTyping : Bool
deriving DecidableEq, Repr

/-- The `typing` handler of the jwt socket server: requires both ids, then
relays via `socket.to` (sender excluded); the store is never touched. -/
def socketTyping (store : SStore) (rooms : RoomMap) (sid : String) (d : TypingData) :
    SStore × List String :=
  if falsyS d.chatId ∨ falsyS d.orderId then (store, [])
  else (store, broadcastExceptSender rooms ("order-" ++ d.orderId.getD "") sid)

/-! ## The socket server actually wired in `index.ts`
(`src/services/socketsever.ts`): no handshake middleware, a trust-based
`authenticate` event, an unguarded `join-chat`, a persist-free
`new-message` relay and an `io.to`-based `typing` relay. -/

/-- `socket.data` of that server: absent fields model the pre-authenticate
empty object. -/
structure GUserData where
  userId : Option String
  role : Option String
deriving DecidableEq, Repr

/-- Connection-local state of a socketsever.ts socket. -/
structure GConn where
  dataUser : GUserData
  rooms : List String
deriving DecidableEq, Repr

inductive GEvent
  | errorEvt (msg : String)
deriving DecidableEq, Repr

/-- The state in which `io.on("connection")` receives every socket: no
`io.use` middleware is registered, so every transport connection is
accepted with no identity attached. -/
def socketseverOnConnection : GConn := { dataUser := ⟨none, none⟩, rooms := [] }

/-- The `authenticate` event handler (socketsever.ts lines 44-74): it only
checks that the client-supplied `userId` and `role` are truthy — no
credential is verified and no account store is consulted — then records
them and joins the requested rooms. -/
def socketseverAuthenticate (conn : GConn) (userId role orderId chatId : Option String) :
    GConn × List GEvent :=
  if falsyS userId ∨ falsyS role then (conn, [.errorEvt "Missing user data"])
  else
    let rooms := conn.rooms
    let rooms := match orderId with
      | some oid => if oid = "" then rooms else rooms ++ ["order-" ++ oid]
      | none => rooms
    let rooms := match chatId with
      | some cid => if cid = "" then rooms else rooms ++ ["chat-" ++ cid]
      | none => rooms
    let rooms := if role = some "admin" then rooms ++ ["admin-room"] else rooms
    ({ dataUser := ⟨userId, role⟩, rooms := rooms }, [])

/-- The `join-chat` handler (socketsever.ts lines 76-84): once
authenticated, any chat id whatsoever is joined — no access guard. -/
def joinChat (rooms : RoomMap) (sid : String) (ud : GUserData) (chatId : String) :
    RoomMap × List GEvent :=
  if falsyS ud.userId then (rooms, [.errorEvt "Not authenticated"])
  else (joinRoom rooms sid ("chat-" ++ chatId), [])

/-- Client payload of the socketsever.ts `new-message` event. -/
structure GNewMsgData where
  chatId : Option String
  orderId : Option String
  content : String
deriving DecidableEq, Repr

/-- The `new-message` handler (socketsever.ts lines 92-124): a pure relay —
it broadcasts the client-supplied content via `io.to` and never touches the
chat store (the function has no store argument because the source performs
no `ChatModel` call). Returns the (recipient, content) deliveries. -/
def relayNewMessage (rooms : RoomMap) (sender : GUserData) (d : GNewMsgData) :
    List (String × String) :=
  if falsyS sender.userId ∨ falsyS sender.role then []
  else if ¬falsyS d.orderId then
    (broadcastAll rooms ("order-" ++ d.orderId.getD "")).map fun s => (s, d.content)
  else if ¬falsyS d.chatId then
    (broadcastAll rooms ("chat-" ++ d.chatId.getD "")).map fun s => (s, d.content)
  else []

/-- Does any persisted chat of the canonical store contain a message with
this content? -/
def chatStoreHasContent (store : ChatStore) (content : String) : Bool :=
  store.any fun p => p.2.messages.any fun m => decide (m.content = content)

/-- The `typing` handler of socketsever.ts (lines 126-144): relays via
`io.to`, so the sending socket `sid` is among the recipients whenever it is
a member of the target room (the handler never excludes it); nothing is
persisted. -/
def socketseverTyping (store : ChatStore) (rooms : RoomMap) (sid : String)
    (sender : GUserData) (d : TypingData) : ChatStore × List String :=
  if falsyS sender.userId then (store, [])
  else if ¬falsyS d.orderId then (store, broadcastAll rooms ("order-" ++ d.orderId.getD ""))
  else if ¬falsyS d.chatId then (store, broadcastAll rooms ("chat-" ++ d.chatId.getD ""))
  else (store, [])

/-! ## The jwt handshake middleware (`io.use` of the jwt socket server). -/

/-- A bearer token: either a jwt signed with some secret for some account
id, or a malformed/forged credential that fails verification. -/
inductive HandshakeToken
  | valid (secret : String) (userId : String)
  | malformed
deriving DecidableEq, Repr

/-- `jwt.verify(token, secretKey)`, returning the decoded account id. -/
def jwtVerify (tok : HandshakeToken) (secret : String) : Option String :=
  match tok with
  | .valid s uid => if s = secret then some uid else none
  | .malformed => none

/-- An account record of `usermodel`. -/
structure UserRec where
  id : String
  name : String
  email : String
  role : String
deriving DecidableEq, Repr

/-- `usermodel.findById`. -/
def findUser (users : List UserRec) (uid : String) : Option UserRec :=
  users.find? fun u => u.id = uid

/-- The `io.use` middleware: missing token, failed verification, and
unknown account each reject the connection with an explicit authentication
error; otherwise the connection proceeds carrying the resolved identity. -/
def socketAuthMiddleware (users : List UserRec) (secret : String)
    (token : Option HandshakeToken) : Except String SUser :=
  match token with
  | none => .error "Authentication error: Token required"
  | some tok =>
      match jwtVerify tok secret with
      | none => .error "Authentication error: Invalid token"
      | some uid =>
          match findUser users uid with
          | none => .error "Authentication error: User not found"
          | some u => .ok { id := u.id, name := u.name, role := u.role }

/-! ## Append-only structure of the message log. -/

/-- The immutable part of a canonical message: everything but `read`. -/
structure MsgCore where
  sender : Sender
  content : String
  timestamp : Nat
  attachments : List Attachment
deriving DecidableEq, Repr

def Message.core (m : Message) : MsgCore :=
  ⟨m.sender, m.content, m.timestamp, m.attachments⟩

/-- `new` extends `old` at the end: every existing position survives with
the same immutable core (only `read` may differ). -/
def logExtends (old new : List Message) : Prop :=
  old.length ≤ new.length ∧ (new.take old.length).map Message.core = old.map Message.core

/-- The immutable part of a `senderId`/`senderRole` message. -/
structure SMsgCore where
  senderId : String
  senderRole : String
  message : String
  timestamp : Nat
deriving DecidableEq, Repr

def SMessage.core (m : SMessage) : SMsgCore :=
  ⟨m.senderId, m.senderRole, m.message, m.timestamp⟩

def slogExtends (old new : List SMessage) : Prop :=
  old.length ≤ new.length ∧ (new.take old.length).map SMessage.core = old.map SMessage.core

theorem logExtends_refl (msgs : List Message) : logExtends msgs msgs :=
  ⟨Nat.le_refl _, by rw [List.take_length]⟩

theorem logExtends_trans {a b c : List Message}
    (h1 : logExtends a b) (h2 : logExtends b c) : logExtends a c := by
  obtain ⟨hl1, he1⟩ := h1
  obtain ⟨hl2, he2⟩ := h2
  refine ⟨Nat.le_trans hl1 hl2, ?_⟩
  have : c.take a.length = (c.take b.length).take a.length := by
    rw [List.take_take, Nat.min_eq_left hl1]
  rw [this, List.map_take, he2, ← List.map_take, he1]

theorem logExtends_append (msgs l : List Message) : logExtends msgs (msgs ++ l) :=
  ⟨by simp, by rw [List.take_left]⟩

theorem logExtends_map {f : Message → Message} (hf : ∀ m, (f m).core = m.core)
    (msgs : List Message) : logExtends msgs (msgs.map f) := by
  refine ⟨by simp, ?_⟩
  have hlen : (msgs.map f).length = msgs.length := by simp
  rw [← hlen, List.take_length, List.map_map]
  exact List.map_congr_left fun a _ => hf a

theorem slogExtends_refl (msgs : List SMessage) : slogExtends msgs msgs :=
  ⟨Nat.le_refl _, by rw [List.take_length]⟩

theorem slogExtends_trans {a b c : List SMessage}
    (h1 : slogExtends a b) (h2 : slogExtends b c) : slogExtends a c := by
  obtain ⟨hl1, he1⟩ := h1
  obtain ⟨hl2, he2⟩ := h2
  refine ⟨Nat.le_trans hl1 hl2, ?_⟩
  have : c.take a.length = (c.take b.length).take a.length := by
    rw [List.take_take, Nat.min_eq_left hl1]
  rw [this, List.map_take, he2, ← List.map_take, he1]

theorem slogExtends_append (msgs l : List SMessage) : slogExtends msgs (msgs ++ l) :=
  ⟨by simp, by rw [List.take_left]⟩

theorem slogExtends_map {f : SMessage → SMessage} (hf : ∀ m, (f m).core = m.core)
    (msgs : List SMessage) : slogExtends msgs (msgs.map f) := by
  refine ⟨by simp, ?_⟩
  have hlen : (msgs.map f).length = msgs.length := by simp
  rw [← hlen, List.take_length, List.map_map]
  exact List.map_congr_left fun a _ => hf a

/-- The store-mutating operations of the HTTP chat controller. -/
inductive AOp
  | opSendToChat (userId role : String) (chatId : Option String) (content : Option String)
      (files : List UploadFile) (now : Nat)
  | opMarkRead (userId role : String) (chatId : Option String) (now : Nat)
  | opSendMessage (orders : OrderStore) (userId role : String) (orderId content : Option String)
      (freshId : String) (now : Nat)
  | opSendWithAttachment (orders : OrderStore) (userId role : String)
      (orderId content : Option String) (files : List UploadFile) (freshId : String) (now : Nat)
  | opGetByOrder (orders : OrderStore) (userId role : String) (orderId : Option String)
      (page limit : Nat) (freshId : String) (now : Nat)
  | opCreateGeneral (userId : String) (subject message : Option String) (freshId : String)
      (now : Nat)

/-- Resulting store of an operation; a failed request leaves the store as
it was. -/
def applyOp : AOp → ChatStore → ChatStore
  | .opSendToChat uid role cid content files now, s =>
      match sendMessageToChatById s uid role cid content files now with
      | .ok r => r.1
      | .error _ => s
  | .opMarkRead uid role cid now, s =>
      match markMessagesAsRead s uid role cid now with
      | .ok r => r.1
      | .error _ => s
  | .opSendMessage orders uid role oid content freshId now, s =>
      match sendMessage s orders uid role oid content freshId now with
      | .ok r => r.1
      | .error _ => s
  | .opSendWithAttachment orders uid role oid content files freshId now, s =>
      match sendMessageWithAttachment s orders uid role oid content files freshId now with
      | .ok r => r.1
      | .error _ => s
  | .opGetByOrder orders uid role oid page limit freshId now, s =>
      match getChatByOrder s orders uid role oid page limit freshId now with
      | .ok r => r.1
      | .error _ => s
  | .opCreateGeneral uid subject message freshId now, s =>
      match createGeneralChat s uid subject message freshId now with
      | .ok r => r.1
      | .error _ => s

/-- Freshness of the id used when an operation may insert a new chat
(mongoose generates an unused `_id`). -/
def opFresh : AOp → ChatStore → Prop
  | .opSendToChat _ _ _ _ _ _, _ => True
  | .opMarkRead _ _ _ _, _ => True
  | .opSendMessage _ _ _ _ _ freshId _, s => findById s freshId = none
  | .opSendWithAttachment _ _ _ _ _ _ freshId _, s => findById s freshId = none
  | .opGetByOrder _ _ _ _ _ _ freshId _, s => findById s freshId = none
  | .opCreateGeneral _ _ _ freshId _, s => findById s freshId = none

/-- Sequences of controller operations, each run with a fresh insert id. -/
inductive Reaches : ChatStore → ChatStore → Prop
  | refl (s : ChatStore) : Reaches s s
  | step {s t : ChatStore} (op : AOp) (h : Reaches s t) (hf : opFresh op t) :
      Reaches s (applyOp op t)

/-- Sequences of store-touching socket operations (jwt socket server). -/
inductive BReaches : SStore → SStore → Prop
  | refl (s : SStore) : BReaches s s
  | stepSend {s t : SStore} (u : SUser) (d : SMsgData) (now : Nat) (h : BReaches s t) :
      BReaches s (socketSendMessage t u d now).1
  | stepMark {s t : SStore} (u : SUser) (chatId : Option String) (h : BReaches s t) :
      BReaches s (socketMarkAsRead t u chatId).1

theorem not_mem_keysOf_of_lookup_none {α : Type} (s : List (String × α)) (k : String)
    (h : lookupKV s k = none) : k ∉ keysOf s := by
  induction s with
  | nil => simp [keysOf]
  | cons hd tl ih =>
    obtain ⟨k0, v⟩ := hd
    by_cases hk : k0 = k
    · simp [lookupKV, hk] at h
    · simp [lookupKV, hk] at h
      simp [keysOf, Ne.symm hk]
      have := ih h
      simpa [keysOf] using this

theorem nodup_keys_append_single {α : Type} (s : List (String × α)) (k : String) (v : α)
    (hnd : (keysOf s).Nodup) (h : lookupKV s k = none) :
    (keysOf (s ++ [(k, v)])).Nodup := by
  have hk : k ∉ keysOf s := not_mem_keysOf_of_lookup_none s k h
  have : keysOf (s ++ [(k, v)]) = keysOf s ++ [k] := by simp [keysOf]
  rw [this, List.nodup_append]
  exact ⟨hnd, List.nodup_singleton k, (List.disjoint_singleton).2 hk⟩

theorem findOrderChat_lookup (s : ChatStore) (oid cid : String) (c : Chat)
    (hnd : (keysOf s).Nodup) (h : findOrderChat s oid = some (cid, c)) :
    findById s cid = some c := by
  induction s with
  | nil => simp [findOrderChat] at h
  | cons hd tl ih =>
    obtain ⟨k0, c0⟩ := hd
    simp only [keysOf, List.map_cons, List.nodup_cons] at hnd
    by_cases hc : c0.orderId = some oid ∧ c0.isOrderChat
    · simp [findOrderChat, hc] at h
      obtain ⟨h1, h2⟩ := h
      simp [findById, lookupKV, h1, h2]
    · simp [findOrderChat, hc] at h
      have hrec := ih hnd.2 h
      have hmem : cid ∈ keysOf tl :=
        mem_keysOf_of_lookupKV tl cid c hrec
      have hk0 : k0 ≠ cid := by
        intro heq
        exact hnd.1 (heq ▸ hmem)
      simpa [findById, lookupKV, hk0] using hrec


theorem multerCheck_ok {files fs : List UploadFile} (h : multerCheck files = .ok fs) :
    fs = files := by
  unfold multerCheck at h
  by_cases h1 : files.length > 3
  · simp [h1] at h
  · by_cases h2 : files.any fun f => f.size > 5 * 1024 * 1024
    · simp [h1, h2] at h
    · simp [h1, h2] at h
      exact h.symm

theorem validateChatAccess_ok_find {s : ChatStore} {cid uid role : String} {chat : Chat}
    (h : validateChatAccess s cid uid role = .ok chat) : findById s cid = some chat := by
  unfold validateChatAccess at h
  cases hf : findById s cid with
  | none => rw [hf] at h; cases h
  | some c =>
    rw [hf] at h
    by_cases hacc : role = "admin" ∨ c.customerId = uid
    · simp only [if_pos hacc] at h
      injection h with h'
      rw [h']
    · simp only [if_neg hacc] at h
      cases h

theorem upsertChat_of_none {s : ChatStore} {k : String} (c : Chat)
    (h : findById s k = none) : upsertChat s k c = s ++ [(k, c)] := by
  simp [upsertChat, h]

theorem upsertChat_of_some {s : ChatStore} {k : String} {c0 : Chat} (c : Chat)
    (h : findById s k = some c0) : upsertChat s k c = saveKV s k c := by
  simp [upsertChat, h]

/-- Inversion of a successful `sendMessageToChatById`: the result is the
old store with exactly the target chat replaced, its log extended at the
end by the created message, and the trace is the save followed by the
`new-message` emit. -/
theorem sendMessageToChatById_ok_shape {s : ChatStore} {uid role : String}
    {chatId content : Option String} {files : List UploadFile} {now : Nat}
    {r : ChatStore × List TraceEvent}
    (h : sendMessageToChatById s uid role chatId content files now = .ok r) :
    ∃ cid chat chat' msg,
      chatId = some cid ∧
      findById s cid = some chat ∧
      msg = createMessage (if role = "admin" then Sender.admin else Sender.user)
              (content.getD "")
              (files.map fun f => Attachment.mk f.buffer f.mimetype f.originalname f.size) now ∧
      chat'.messages = chat.messages ++ [msg] ∧
      r.1 = saveKV s cid chat' ∧
      r.2 = [TraceEvent.saveEvt cid chat',
             TraceEvent.newMessageEvt (roomNameOf cid chat') msg.sender msg.content
               msg.timestamp] := by
  unfold sendMessageToChatById at h
  cases hm : multerCheck files with
  | error e => rw [hm] at h; cases h
  | ok fs =>
    have hfs : fs = files := multerCheck_ok hm
    subst hfs
    rw [hm] at h
    cases chatId with
    | none => cases h
    | some cid =>
      simp only at h
      by_cases hreq : falsyS content ∧ fs.isEmpty
      · rw [if_pos hreq] at h; cases h
      · rw [if_neg hreq] at h
        cases hv : validateChatAccess s cid uid role with
        | error e => rw [hv] at h; cases h
        | ok chat =>
          rw [hv] at h
          simp only at h
          by_cases hadm : role = "admin" ∧ chat.adminId = none
          · simp only [if_pos hadm] at h
            injection h with h'
            subst h'
            exact ⟨cid, chat, _, _, rfl, validateChatAccess_ok_find hv, rfl, rfl, rfl, rfl⟩
          · simp only [if_neg hadm] at h
            injection h with h'
            subst h'
            exact ⟨cid, chat, _, _, rfl, validateChatAccess_ok_find hv, rfl, rfl, rfl, rfl⟩

/-- Inversion of a successful `markMessagesAsRead`: the result replaces the
target chat with one whose messages differ only in `read` flags. -/
theorem markMessagesAsRead_ok_shape {s : ChatStore} {uid role : String}
    {chatId : Option String} {now : Nat} {r : ChatStore × List TraceEvent}
    (h : markMessagesAsRead s uid role chatId now = .ok r) :
    ∃ cid chat chat',
      chatId = some cid ∧
      findById s cid = some chat ∧
      chat'.messages = chat.messages.map (fun m =>
        if m.sender = (if role = "admin" then Sender.user else Sender.admin) then
          { m with read := true } else m) ∧
      r.1 = saveKV s cid chat' := by
  unfold markMessagesAsRead at h
  cases chatId with
  | none => cases h
  | some cid =>
    simp only at h
    cases hv : validateChatAccess s cid uid role with
    | error e => rw [hv] at h; cases h
    | ok chat =>
      rw [hv] at h
      simp only at h
      injection h with h'
      subst h'
      exact ⟨cid, chat, _, rfl, validateChatAccess_ok_find hv, rfl, rfl⟩

/-- Inversion of a successful `sendMessage`: the result upserts a chat
whose log is the base chat's log (the found order chat, or the empty new
one) extended at the end, and the trace is the save followed by the emit. -/
theorem sendMessage_ok_shape {s : ChatStore} {orders : OrderStore} {uid role : String}
    {orderId content : Option String} {freshId : String} {now : Nat}
    {r : ChatStore × List TraceEvent}
    (h : sendMessage s orders uid role orderId content freshId now = .ok r) :
    ∃ cid chat chat' msg,
      (findOrderChat s (orderId.getD "") = some (cid, chat) ∨
        (findOrderChat s (orderId.getD "") = none ∧ cid = freshId ∧ chat.messages = [])) ∧
      msg = createMessage (if role = "admin" then Sender.admin else Sender.user)
              (content.getD "") [] now ∧
      chat'.messages = chat.messages ++ [msg] ∧
      r.1 = upsertChat s cid chat' ∧
      r.2 = [TraceEvent.saveEvt cid chat',
             TraceEvent.newMessageEvt ("order-" ++ orderId.getD "") msg.sender msg.content
               msg.timestamp] := by
  unfold sendMessage at h
  by_cases hreq : falsyS orderId ∨ falsyS content
  · rw [if_pos hreq] at h; cases h
  · rw [if_neg hreq] at h
    simp only at h
    cases hv : validateOrderAccess orders (orderId.getD "") uid role with
    | error e => rw [hv] at h; cases h
    | ok order =>
      rw [hv] at h
      simp only at h
      cases hfc : findOrderChat s (orderId.getD "") with
      | none =>
        rw [hfc] at h
        simp only at h
        split at h
        · injection h with h'
          subst h'
          exact ⟨freshId,
            { customerId := order.customerId, adminId := none,
              orderId := some (orderId.getD ""), subject := none, isOrderChat := true,
              messages := [], updatedAt := now }, _, _,
            Or.inr ⟨rfl, rfl, rfl⟩, rfl, rfl, rfl, rfl⟩
        · injection h with h'
          subst h'
          exact ⟨freshId,
            { customerId := order.customerId, adminId := none,
              orderId := some (orderId.getD ""), subject := none, isOrderChat := true,
              messages := [], updatedAt := now }, _, _,
            Or.inr ⟨rfl, rfl, rfl⟩, rfl, rfl, rfl, rfl⟩
      | some pair =>
        obtain ⟨cid0, c0⟩ := pair
        rw [hfc] at h
        simp only at h
        split at h
        · injection h with h'
          subst h'
          exact ⟨cid0, c0, _, _, Or.inl rfl, rfl, rfl, rfl, rfl⟩
        · injection h with h'
          subst h'
          exact ⟨cid0, c0, _, _, Or.inl rfl, rfl, rfl, rfl, rfl⟩

/-- Inversion of a successful `sendMessageWithAttachment`, analogous. -/
theorem sendMessageWithAttachment_ok_shape {s : ChatStore} {orders : OrderStore}
    {uid role : String} {orderId content : Option String} {files : List UploadFile}
    {freshId : String} {now : Nat} {r : ChatStore × List TraceEvent}
    (h : sendMessageWithAttachment s orders uid role orderId content files freshId now = .ok r) :
    ∃ cid chat chat' msg,
      (findOrderChat s (orderId.getD "") = some (cid, chat) ∨
        (findOrderChat s (orderId.getD "") = none ∧ cid = freshId ∧ chat.messages = [])) ∧
      msg = createMessage (if role = "admin" then Sender.admin else Sender.user)
              (content.getD "")
              (files.map fun f => Attachment.mk f.buffer f.mimetype f.originalname f.size) now ∧
      chat'.messages = chat.messages ++ [msg] ∧
      r.1 = upsertChat s cid chat' ∧
      r.2 = [TraceEvent.saveEvt cid chat',
             TraceEvent.newMessageEvt ("order-" ++ orderId.getD "") msg.sender msg.content
               msg.timestamp] := by
  unfold sendMessageWithAttachment at h
  cases hm : multerCheck files with
  | error e => rw [hm] at h; cases h
  | ok fs =>
    have hfs : fs = files := multerCheck_ok hm
    subst hfs
    rw [hm] at h
    simp only at h
    by_cases hreq : falsyS orderId
    · rw [if_pos hreq] at h; cases h
    · rw [if_neg hreq] at h
      cases hv : validateOrderAccess orders (orderId.getD "") uid role with
      | error e => rw [hv] at h; cases h
      | ok order =>
        rw [hv] at h
        simp only at h
        cases hfc : findOrderChat s (orderId.getD "") with
        | none =>
          rw [hfc] at h
          simp only at h
          injection h with h'
          subst h'
          exact ⟨freshId,
            { customerId := order.customerId, adminId := none,
              orderId := some (orderId.getD ""), subject := none, isOrderChat := true,
              messages := [], updatedAt := now }, _, _,
            Or.inr ⟨rfl, rfl, rfl⟩, rfl, rfl, rfl, rfl⟩
        | some pair =>
          obtain ⟨cid0, c0⟩ := pair
          rw [hfc] at h
          simp only at h
          injection h with h'
          subst h'
          exact ⟨cid0, c0, _, _, Or.inl rfl, rfl, rfl, rfl, rfl⟩

/-- Inversion of a successful `getChatByOrder`: either a pure read, or the
insertion of a brand-new empty chat at the fresh id. -/
theorem getChatByOrder_ok_shape {s : ChatStore} {orders : OrderStore} {uid role : String}
    {orderId : Option String} {page limit : Nat} {freshId : String} {now : Nat}
    {r : ChatStore × Chat}
    (h : getChatByOrder s orders uid role orderId page limit freshId now = .ok r) :
    r.1 = s ∨ ∃ c : Chat, c.messages = [] ∧ r.1 = s ++ [(freshId, c)] := by
  unfold getChatByOrder at h
  by_cases hreq : falsyS orderId
  · rw [if_pos hreq] at h; cases h
  · rw [if_neg hreq] at h
    simp only at h
    cases hv : validateOrderAccess orders (orderId.getD "") uid role with
    | error e => rw [hv] at h; cases h
    | ok order =>
      rw [hv] at h
      simp only at h
      cases hfc : findOrderChat s (orderId.getD "") with
      | none =>
        rw [hfc] at h
        simp only at h
        injection h with h'
        subst h'
        exact Or.inr ⟨_, rfl, rfl⟩
      | some pair =>
        rw [hfc] at h
        simp only at h
        injection h with h'
        subst h'
        exact Or.inl rfl

/-- Inversion of a successful `createGeneralChat`: a new one-message chat
is appended at the fresh id. -/
theorem createGeneralChat_ok_shape {s : ChatStore} {uid : String}
    {subject message : Option String} {freshId : String} {now : Nat}
    {r : ChatStore × List TraceEvent}
    (h : createGeneralChat s uid subject message freshId now = .ok r) :
    ∃ c : Chat, r.1 = s ++ [(freshId, c)] := by
  unfold createGeneralChat at h
  by_cases hreq : falsyS message
  · rw [if_pos hreq] at h; cases h
  · rw [if_neg hreq] at h
    injection h with h'
    subst h'
    exact ⟨_, rfl⟩

/-- One controller operation preserves key uniqueness and only ever
extends a chat's log, read flags aside. -/
theorem applyOp_step (op : AOp) (s : ChatStore)
    (hnd : (keysOf s).Nodup) (hf : opFresh op s) :
    (keysOf (applyOp op s)).Nodup ∧
      ∀ cid chat, findById s cid = some chat →
        ∃ chat', findById (applyOp op s) cid = some chat' ∧
          logExtends chat.messages chat'.messages := by
  have hsave : ∀ (tgt : String) (c c' : Chat), findById s tgt = some c →
      logExtends c.messages c'.messages →
      (keysOf (saveKV s tgt c')).Nodup ∧
        ∀ cid chat, findById s cid = some chat →
          ∃ chat2, findById (saveKV s tgt c') cid = some chat2 ∧
            logExtends chat.messages chat2.messages := by
    intro tgt c c' hfind hext
    constructor
    · rw [keysOf_saveKV]
      exact hnd
    · intro cid chat h0
      by_cases hc : cid = tgt
      · subst hc
        have hcc : chat = c := by rw [h0] at hfind; injection hfind
        subst hcc
        exact ⟨c', lookupKV_saveKV_self s cid chat c' h0, hext⟩
      · refine ⟨chat, ?_, logExtends_refl _⟩
        show lookupKV (saveKV s tgt c') cid = some chat
        rw [lookupKV_saveKV_ne s tgt cid c' hc]
        exact h0
  have hins : ∀ (k : String) (v : Chat), findById s k = none →
      (keysOf (s ++ [(k, v)])).Nodup ∧
        ∀ cid chat, findById s cid = some chat →
          ∃ chat2, findById (s ++ [(k, v)]) cid = some chat2 ∧
            logExtends chat.messages chat2.messages := by
    intro k v hnone
    exact ⟨nodup_keys_append_single s k v hnd hnone,
      fun cid chat h0 => ⟨chat, lookupKV_append_some s [(k, v)] cid chat h0, logExtends_refl _⟩⟩
  have htriv : (keysOf s).Nodup ∧
      ∀ cid chat, findById s cid = some chat →
        ∃ chat2, findById s cid = some chat2 ∧ logExtends chat.messages chat2.messages :=
    ⟨hnd, fun cid chat h0 => ⟨chat, h0, logExtends_refl _⟩⟩
  cases op with
  | opSendToChat uid role chatId content files now =>
    simp only [applyOp]
    cases hr : sendMessageToChatById s uid role chatId content files now with
    | error e => exact htriv
    | ok r =>
      show (keysOf r.1).Nodup ∧ ∀ cid chat, findById s cid = some chat →
        ∃ chat', findById r.1 cid = some chat' ∧ logExtends chat.messages chat'.messages
      obtain ⟨cid, chat, chat', msg, -, hfind, -, hext, hr1, -⟩ :=
        sendMessageToChatById_ok_shape hr
      rw [hr1]
      exact hsave cid chat chat' hfind (by rw [hext]; exact logExtends_append _ _)
  | opMarkRead uid role chatId now =>
    simp only [applyOp]
    cases hr : markMessagesAsRead s uid role chatId now with
    | error e => exact htriv
    | ok r =>
      show (keysOf r.1).Nodup ∧ ∀ cid chat, findById s cid = some chat →
        ∃ chat', findById r.1 cid = some chat' ∧ logExtends chat.messages chat'.messages
      obtain ⟨cid, chat, chat', -, hfind, hext, hr1⟩ := markMessagesAsRead_ok_shape hr
      rw [hr1]
      refine hsave cid chat chat' hfind ?_
      rw [hext]
      refine logExtends_map (fun m => ?_) chat.messages
      by_cases hm : m.sender = (if role = "admin" then Sender.user else Sender.admin) <;>
        simp [hm, Message.core]
  | opSendMessage orders uid role orderId content freshId now =>
    simp only [applyOp]
    cases hr : sendMessage s orders uid role orderId content freshId now with
    | error e => exact htriv
    | ok r =>
      show (keysOf r.1).Nodup ∧ ∀ cid chat, findById s cid = some chat →
        ∃ chat', findById r.1 cid = some chat' ∧ logExtends chat.messages chat'.messages
      obtain ⟨cid, chat, chat', msg, hcase, -, hext, hr1, -⟩ := sendMessage_ok_shape hr
      have hlog : logExtends chat.messages chat'.messages := by
        rw [hext]; exact logExtends_append _ _
      rw [hr1]
      cases hcase with
      | inl hfound =>
        have hfind : findById s cid = some chat := findOrderChat_lookup s _ cid chat hnd hfound
        rw [upsertChat_of_some chat' hfind]
        exact hsave cid chat chat' hfind hlog
      | inr hnew =>
        obtain ⟨hnone, hcid, hmsgs⟩ := hnew
        subst hcid
        rw [upsertChat_of_none chat' hf]
        exact hins cid chat' hf
  | opSendWithAttachment orders uid role orderId content files freshId now =>
    simp only [applyOp]
    cases hr : sendMessageWithAttachment s orders uid role orderId content files freshId now with
    | error e => exact htriv
    | ok r =>
      show (keysOf r.1).Nodup ∧ ∀ cid chat, findById s cid = some chat →
        ∃ chat', findById r.1 cid = some chat' ∧ logExtends chat.messages chat'.messages
      obtain ⟨cid, chat, chat', msg, hcase, -, hext, hr1, -⟩ :=
        sendMessageWithAttachment_ok_shape hr
      have hlog : logExtends chat.messages chat'.messages := by
        rw [hext]; exact logExtends_append _ _
      rw [hr1]
      cases hcase with
      | inl hfound =>
        have hfind : findById s cid = some chat := findOrderChat_lookup s _ cid chat hnd hfound
        rw [upsertChat_of_some chat' hfind]
        exact hsave cid chat chat' hfind hlog
      | inr hnew =>
        obtain ⟨hnone, hcid, hmsgs⟩ := hnew
        subst hcid
        rw [upsertChat_of_none chat' hf]
        exact hins cid chat' hf
  | opGetByOrder orders uid role orderId page limit freshId now =>
    simp only [applyOp]
    cases hr : getChatByOrder s orders uid role orderId page limit freshId now with
    | error e => exact htriv
    | ok r =>
      show (keysOf r.1).Nodup ∧ ∀ cid chat, findById s cid = some chat →
        ∃ chat', findById r.1 cid = some chat' ∧ logExtends chat.messages chat'.messages
      cases getChatByOrder_ok_shape hr with
      | inl heq =>
        rw [heq]
        exact htriv
      | inr hnew =>
        obtain ⟨c, -, heq⟩ := hnew
        rw [heq]
        exact hins freshId c hf
  | opCreateGeneral uid subject message freshId now =>
    simp only [applyOp]
    cases hr : createGeneralChat s uid subject message freshId now with
    | error e => exact htriv
    | ok r =>
      show (keysOf r.1).Nodup ∧ ∀ cid chat, findById s cid = some chat →
        ∃ chat', findById r.1 cid = some chat' ∧ logExtends chat.messages chat'.messages
      obtain ⟨c, heq⟩ := createGeneralChat_ok_shape hr
      rw [heq]
      exact hins freshId c hf

/-- A socket `send-message` never removes or rewrites an existing message. -/
theorem socketSendMessage_preserves (t : SStore) (u : SUser) (d : SMsgData) (now : Nat) :
    ∀ cid chat, lookupKV t cid = some chat →
      ∃ chat', lookupKV (socketSendMessage t u d now).1 cid = some chat' ∧
        slogExtends chat.messages chat'.messages := by
  intro cid chat h0
  unfold socketSendMessage
  by_cases hreq : falsyS d.chatId ∨ falsyS d.message ∨ falsyS d.orderId
  · rw [if_pos hreq]
    exact ⟨chat, h0, slogExtends_refl _⟩
  · rw [if_neg hreq]
    simp only
    cases hfc : lookupKV t (d.chatId.getD "") with
    | none => exact ⟨chat, h0, slogExtends_refl _⟩
    | some c =>
      dsimp only
      by_cases hauth : u.role ≠ "admin" ∧ c.customerId ≠ u.id
      · rw [if_pos hauth]
        exact ⟨chat, h0, slogExtends_refl _⟩
      · rw [if_neg hauth]
        simp only
        by_cases hc : cid = d.chatId.getD ""
        · subst hc
          have hcc : chat = c := by rw [h0] at hfc; injection hfc
          subst hcc
          exact ⟨_, lookupKV_saveKV_self t _ chat _ h0, slogExtends_append _ _⟩
        · refine ⟨chat, ?_, slogExtends_refl _⟩
          show lookupKV (saveKV t (d.chatId.getD "") _) cid = some chat
          rw [lookupKV_saveKV_ne t _ cid _ hc]
          exact h0

/-- A socket `mark-as-read` only flips read flags of existing messages. -/
theorem socketMarkAsRead_preserves (t : SStore) (u : SUser) (chatId : Option String) :
    ∀ cid chat, lookupKV t cid = some chat →
      ∃ chat', lookupKV (socketMarkAsRead t u chatId).1 cid = some chat' ∧
        slogExtends chat.messages chat'.messages := by
  intro cid chat h0
  unfold socketMarkAsRead
  by_cases hreq : falsyS chatId
  · rw [if_pos hreq]
    exact ⟨chat, h0, slogExtends_refl _⟩
  · rw [if_neg hreq]
    simp only
    cases hfc : lookupKV t (chatId.getD "") with
    | none => exact ⟨chat, h0, slogExtends_refl _⟩
    | some c =>
      dsimp only
      by_cases hauth : u.role ≠ "admin" ∧ c.customerId ≠ u.id
      · rw [if_pos hauth]
        exact ⟨chat, h0, slogExtends_refl _⟩
      · rw [if_neg hauth]
        simp only
        unfold updateOneMarkRead
        rw [hfc]
        simp only
        by_cases heq : markReadUpdate c.messages (if u.role = "admin" then "user" else "admin")
            = c.messages
        · rw [if_pos heq]
          exact ⟨chat, h0, slogExtends_refl _⟩
        · rw [if_neg heq]
          simp only
          by_cases hc : cid = chatId.getD ""
          · subst hc
            have hcc : chat = c := by rw [h0] at hfc; injection hfc
            subst hcc
            refine ⟨_, lookupKV_saveKV_self t _ chat _ h0, ?_⟩
            refine slogExtends_map (fun m => ?_) chat.messages
            by_cases hm : m.senderRole = (if u.role = "admin" then "user" else "admin")
                ∧ m.read = false <;>
              simp [hm, SMessage.core]
          · refine ⟨chat, ?_, slogExtends_refl _⟩
            show lookupKV (saveKV t (chatId.getD "") _) cid = some chat
            rw [lookupKV_saveKV_ne t _ cid _ hc]
            exact h0

theorem breaches_preserves {s t : SStore} (h : BReaches s t) :
    ∀ cid chat, lookupKV s cid = some chat →
      ∃ chat', lookupKV t cid = some chat' ∧ slogExtends chat.messages chat'.messages := by
  induction h with
  | refl => exact fun cid chat h0 => ⟨chat, h0, slogExtends_refl _⟩
  | stepSend u d now h ih =>
    intro cid chat h0
    obtain ⟨c1, hc1, he1⟩ := ih cid chat h0
    obtain ⟨c2, hc2, he2⟩ := socketSendMessage_preserves _ u d now cid c1 hc1
    exact ⟨c2, hc2, slogExtends_trans he1 he2⟩
  | stepMark u chatId h ih =>
    intro cid chat h0
    obtain ⟨c1, hc1, he1⟩ := ih cid chat h0
    obtain ⟨c2, hc2, he2⟩ := socketMarkAsRead_preserves _ u chatId cid c1 hc1
    exact ⟨c2, hc2, slogExtends_trans he1 he2⟩

theorem reaches_preserves {s t : ChatStore} (h : Reaches s t) (hnd : (keysOf s).Nodup) :
    (keysOf t).Nodup ∧
      ∀ cid chat, findById s cid = some chat →
        ∃ chat', findById t cid = some chat' ∧ logExtends chat.messages chat'.messages := by
  induction h with
  | refl => exact ⟨hnd, fun cid chat h0 => ⟨chat, h0, logExtends_refl _⟩⟩
  | step op h hf ih =>
    obtain ⟨hnd1, hpres⟩ := ih
    obtain ⟨hnd2, hstep⟩ := applyOp_step op _ hnd1 hf
    refine ⟨hnd2, fun cid chat h0 => ?_⟩
    obtain ⟨c1, hc1, he1⟩ := hpres cid chat h0
    obtain ⟨c2, hc2, he2⟩ := hstep cid c1 hc1
    exact ⟨c2, hc2, logExtends_trans he1 he2⟩

/-! ## Sample data used by witnesses and counterexamples. -/

/-- A persisted general chat owned by "alice" with one admin message. -/
def chatW : Chat :=
  { customerId := "alice", adminId := none, orderId := none, subject := some "General Inquiry",
    isOrderChat := false,
    messages := [{ sender := Sender.admin, content := "hello", timestamp := 1, read := false,
                   attachments := [] }],
    updatedAt := 1 }

def storeW : ChatStore := [("c1", chatW)]

/-- A persisted order owned by "alice". -/
def orderW : Order := { customerId := "alice", orderNumber := "42", status := "pending" }

def ordersW : OrderStore := [("o1", orderW)]

/-- A closed order chat of the socket-server schema, owned by "alice". -/
def schatClosed : SChat :=
  { orderId := "o1", customerId := "alice", messages := [], lastMessage := 0, openFlag := false }

def sstoreW : SStore := [("c1", schatClosed)]

/-! ## Claims. -/

/-- C7: for every chat and every sequence of operations, the message log is
strictly append-only: each operation leaves the log unchanged or extends it
at the end, existing messages keep their position and their immutable core
(sender, content, timestamp, attachments), and only the read flag may
change. This holds for all store-mutating HTTP controller operations and
for the store-touching socket handlers. -/
theorem chat_log_append_only :
    (∀ s t : ChatStore, (keysOf s).Nodup → Reaches s t →
       ∀ cid chat, findById s cid = some chat →
         ∃ chat', findById t cid = some chat' ∧ logExtends chat.messages chat'.messages) ∧
    (∀ s t : SStore, BReaches s t →
       ∀ cid chat, lookupKV s cid = some chat →
         ∃ chat', lookupKV t cid = some chat' ∧ slogExtends chat.messages chat'.messages) :=
  ⟨fun _ _ hnd hr => (reaches_preserves hr hnd).2, fun _ _ hr => breaches_preserves hr⟩

/-- Witness for C7: one mark-read on a one-chat store, and one socket send. -/
theorem chat_log_append_only_witness :
    (∃ chat', findById (applyOp (AOp.opMarkRead "a1" "admin" (some "c1") 9) storeW) "c1"
        = some chat' ∧
      logExtends chatW.messages chat'.messages) ∧
    (∃ chat', lookupKV (socketSendMessage sstoreW
        { id := "alice", name := "Alice", role := "user" }
        { chatId := some "c1", message := some "yo", orderId := some "o1", customerId := none }
        5).1 "c1" = some chat' ∧
      slogExtends schatClosed.messages chat'.messages) := by
  constructor
  · exact chat_log_append_only.1 storeW _ (by decide)
      (Reaches.step (AOp.opMarkRead "a1" "admin" (some "c1") 9) (Reaches.refl storeW)
        True.intro) "c1" chatW (by decide)
  · exact chat_log_append_only.2 sstoreW _
      (BReaches.stepSend _ _ _ (BReaches.refl _)) "c1" schatClosed (by decide)

/-- C1: chat access is granted iff the caller's role is admin or the
caller's id equals the chat's customerId. An admin always passes; a
customer with a different id is rejected with the unauthorized error and
none of the fetch/mutate operations through the chat-id path can succeed
(no store is ever returned), and the socket send path rejects with its
unauthorized error leaving the store unchanged. -/
theorem chat_access_control
    (store : ChatStore) (chatId uid role : String) (chat : Chat)
    (hfind : findById store chatId = some chat) :
    (validateChatAccess store chatId uid role = .ok chat ↔
       (role = "admin" ∨ chat.customerId = uid)) ∧
    (role = "admin" → validateChatAccess store chatId uid role = .ok chat) ∧
    (role ≠ "admin" → chat.customerId ≠ uid →
      validateChatAccess store chatId uid role
          = .error (Err.unauthorized "Unauthorized access to this chat") ∧
      (∀ page limit out, getChatById store uid role (some chatId) page limit ≠ .ok out) ∧
      (∀ content files now out,
         sendMessageToChatById store uid role (some chatId) content files now ≠ .ok out) ∧
      (∀ now out, markMessagesAsRead store uid role (some chatId) now ≠ .ok out)) ∧
    (∀ (sstore : SStore) (c : SChat) (cid2 m oid : String) (u : SUser)
       (d : SMsgData) (now : Nat),
       d.chatId = some cid2 → cid2 ≠ "" → d.message = some m → m ≠ "" →
       d.orderId = some oid → oid ≠ "" →
       lookupKV sstore cid2 = some c → u.role ≠ "admin" → c.customerId ≠ u.id →
       socketSendMessage sstore u d now
         = (sstore, [SEvent.errorEvt "Unauthorized to send to this chat"])) := by
  have hiff : validateChatAccess store chatId uid role = .ok chat ↔
      (role = "admin" ∨ chat.customerId = uid) := by
    unfold validateChatAccess
    rw [hfind]
    by_cases hacc : role = "admin" ∨ chat.customerId = uid
    · simp [hacc]
    · simp [hacc]
  refine ⟨hiff, fun hadm => hiff.2 (Or.inl hadm), ?_, ?_⟩
  · intro hrole hcust
    have hval : validateChatAccess store chatId uid role
        = .error (Err.unauthorized "Unauthorized access to this chat") := by
      unfold validateChatAccess
      rw [hfind]
      dsimp only
      rw [if_neg (not_or.2 ⟨hrole, hcust⟩)]
    refine ⟨hval, ?_, ?_, ?_⟩
    · intro page limit out heq
      unfold getChatById at heq
      dsimp only at heq
      rw [hval] at heq
      simp at heq
    · intro content files now out heq
      unfold sendMessageToChatById at heq
      cases hm : multerCheck files with
      | error e => rw [hm] at heq; simp at heq
      | ok fs =>
        rw [hm] at heq
        dsimp only at heq
        by_cases hreq : falsyS content ∧ fs.isEmpty
        · rw [if_pos hreq] at heq; simp at heq
        · rw [if_neg hreq] at heq
          rw [hval] at heq
          simp at heq
    · intro now out heq
      unfold markMessagesAsRead at heq
      dsimp only at heq
      rw [hval] at heq
      simp at heq
  · intro sstore c cid2 m oid u d now hcid hcne hm hmne ho hone hlook hrole hcust
    unfold socketSendMessage
    have hfr : ¬(falsyS d.chatId ∨ falsyS d.message ∨ falsyS d.orderId) := by
      simp [falsyS, hcid, hm, ho, hcne, hmne, hone]
    rw [if_neg hfr]
    simp only [hcid, Option.getD_some]
    rw [hlook]
    dsimp only
    rw [if_pos ⟨hrole, hcust⟩]

/-- Witness for C1: "bob" can neither fetch nor mutate "alice"'s chat while
an admin passes, and the socket path rejects "bob" leaving the store as it
was. -/
theorem chat_access_control_witness :
    validateChatAccess storeW "c1" "bob" "user"
      = .error (Err.unauthorized "Unauthorized access to this chat") ∧
    (∀ out, sendMessageToChatById storeW "bob" "user" (some "c1") (some "hi") [] 3 ≠ .ok out) ∧
    validateChatAccess storeW "c1" "zed" "admin" = .ok chatW ∧
    socketSendMessage sstoreW { id := "bob", name := "Bob", role := "user" }
        { chatId := some "c1", message := some "hi", orderId := some "o1", customerId := none } 4
      = (sstoreW, [SEvent.errorEvt "Unauthorized to send to this chat"]) := by
  refine ⟨?_, ?_, ?_, ?_⟩
  · exact ((chat_access_control storeW "c1" "bob" "user" chatW (by decide)).2.2.1
      (by decide) (by decide)).1
  · intro out
    exact ((chat_access_control storeW "c1" "bob" "user" chatW (by decide)).2.2.1
      (by decide) (by decide)).2.2.1 (some "hi") [] 3 out
  · exact (chat_access_control storeW "c1" "zed" "admin" chatW (by decide)).2.1 rfl
  · exact (chat_access_control storeW "c1" "bob" "user" chatW (by decide)).2.2.2
      sstoreW schatClosed "c1" "hi" "o1" _ _ 4 rfl (by decide) rfl (by decide) rfl
      (by decide) (by decide) (by decide) (by decide)

/-- C10: the admin role grants no bypass on the order-access path:
`validateOrderAccess` compares only the customer id, so an admin whose id
differs from the order's customer is rejected with the order-unauthorized
error by `getChatByOrder`, `sendMessage` and `sendMessageWithAttachment`
(no store returned, nothing read or written), while the chat-id path always
admits admins. -/
theorem order_access_no_admin_bypass
    (store : ChatStore) (orders : OrderStore) (oid uid : String) (order : Order)
    (hfind : lookupKV orders oid = some order)
    (hne : order.customerId ≠ uid) (hone : oid ≠ "") :
    validateOrderAccess orders oid uid "admin"
        = .error (Err.unauthorized "Unauthorized access to this order") ∧
    (∀ page limit freshId now,
       getChatByOrder store orders uid "admin" (some oid) page limit freshId now
         = .error (Err.unauthorized "Unauthorized access to this order")) ∧
    (∀ content freshId now, content ≠ "" →
       sendMessage store orders uid "admin" (some oid) (some content) freshId now
         = .error (Err.unauthorized "Unauthorized access to this order")) ∧
    (∀ files content freshId now, multerCheck files = .ok files →
       sendMessageWithAttachment store orders uid "admin" (some oid) content files freshId now
         = .error (Err.unauthorized "Unauthorized access to this order")) ∧
    (∀ cid chat, findById store cid = some chat →
       validateChatAccess store cid uid "admin" = .ok chat) := by
  have hval : validateOrderAccess orders oid uid "admin"
      = .error (Err.unauthorized "Unauthorized access to this order") := by
    unfold validateOrderAccess
    rw [hfind]
    dsimp only
    rw [if_pos hne]
  have hofalsy : falsyS (some oid) = false := by simp [falsyS, hone]
  refine ⟨hval, ?_, ?_, ?_, ?_⟩
  · intro page limit freshId now
    unfold getChatByOrder
    rw [hofalsy]
    simp only [Bool.false_eq_true, if_false, Option.getD_some]
    rw [hval]
  · intro content freshId now hcne
    unfold sendMessage
    have : ¬(falsyS (some oid) ∨ falsyS (some content)) := by
      simp [falsyS, hone, hcne]
    rw [if_neg this]
    simp only [Option.getD_some]
    rw [hval]
  · intro files content freshId now hmc
    unfold sendMessageWithAttachment
    rw [hmc]
    dsimp only
    rw [hofalsy]
    simp only [Bool.false_eq_true, if_false, Option.getD_some]
    rw [hval]
  · intro cid chat hfind2
    unfold validateChatAccess
    rw [hfind2]
    dsimp only
    rw [if_pos (Or.inl rfl)]

/-- Witness for C10: the admin "zed" is rejected on "alice"'s order but
passes the chat-id path. -/
theorem order_access_no_admin_bypass_witness :
    validateOrderAccess ordersW "o1" "zed" "admin"
      = .error (Err.unauthorized "Unauthorized access to this order") ∧
    getChatByOrder storeW ordersW "zed" "admin" (some "o1") 1 50 "f1" 7
      = .error (Err.unauthorized "Unauthorized access to this order") ∧
    sendMessage storeW ordersW "zed" "admin" (some "o1") (some "hi") "f1" 7
      = .error (Err.unauthorized "Unauthorized access to this order") ∧
    sendMessageWithAttachment storeW ordersW "zed" "admin" (some "o1") (some "hi") [] "f1" 7
      = .error (Err.unauthorized "Unauthorized access to this order") ∧
    validateChatAccess storeW "c1" "zed" "admin" = .ok chatW := by
  have h := order_access_no_admin_bypass storeW ordersW "o1" "zed" orderW
    (by decide) (by decide) (by decide)
  exact ⟨h.1, h.2.1 1 50 "f1" 7, h.2.2.1 "hi" "f1" 7 (by decide),
    h.2.2.2.1 [] (some "hi") "f1" 7 rfl, h.2.2.2.2 "c1" chatW (by decide)⟩

/-- C5: attachment admission rejects a request carrying a 4th file or any
file exceeding 5 MB with an invalid-argument (multer limit) error before
the handler runs, so the send operations return no store and the message
log is untouched (all-or-nothing); a request with at most 3 files each at
most 5 MB passes admission. -/
theorem attachment_admission (files : List UploadFile) :
    ((files.length > 3 ∨ ∃ f ∈ files, f.size > 5 * 1024 * 1024) →
       (∃ code, multerCheck files = .error (Err.invalidArgument code)) ∧
       (∀ store uid role chatId content now out,
          sendMessageToChatById store uid role chatId content files now ≠ .ok out) ∧
       (∀ store orders uid role orderId content freshId now out,
          sendMessageWithAttachment store orders uid role orderId content files freshId now
            ≠ .ok out)) ∧
    (files.length ≤ 3 → (∀ f ∈ files, f.size ≤ 5 * 1024 * 1024) →
       multerCheck files = .ok files) := by
  constructor
  · intro hbad
    have herr : ∃ code, multerCheck files = .error (Err.invalidArgument code) := by
      unfold multerCheck
      by_cases h1 : files.length > 3
      · exact ⟨"LIMIT_FILE_COUNT", by rw [if_pos h1]⟩
      · have h2 : (files.any fun f => f.size > 5 * 1024 * 1024) = true := by
          cases hbad with
          | inl h => exact absurd h h1
          | inr h =>
            obtain ⟨f, hf, hsz⟩ := h
            simp only [List.any_eq_true, decide_eq_true_eq]
            exact ⟨f, hf, hsz⟩
        exact ⟨"LIMIT_FILE_SIZE", by rw [if_neg h1, if_pos h2]⟩
    obtain ⟨code, hcode⟩ := herr
    refine ⟨⟨code, hcode⟩, ?_, ?_⟩
    · intro store uid role chatId content now out heq
      unfold sendMessageToChatById at heq
      rw [hcode] at heq
      cases heq
    · intro store orders uid role orderId content freshId now out heq
      unfold sendMessageWithAttachment at heq
      rw [hcode] at heq
      cases heq
  · intro hlen hsz
    have h1 : ¬files.length > 3 := by omega
    have h2 : ¬(files.any fun f => f.size > 5 * 1024 * 1024) = true := by
      simp only [List.any_eq_true, decide_eq_true_eq, not_exists]
      intro f hfc
      have hle := hsz f hfc.1
      have hgt := hfc.2
      omega
    unfold multerCheck
    rw [if_neg h1, if_neg h2]

/-- Witness for C5: a single 6 MB file is rejected and nothing is
persisted; a single 12-byte file passes admission. -/
theorem attachment_admission_witness :
    (∃ code, multerCheck [UploadFile.mk [] "application/pdf" "big.pdf" (6 * 1024 * 1024)]
      = .error (Err.invalidArgument code)) ∧
    (∀ out, sendMessageToChatById storeW "alice" "user" (some "c1") (some "hi")
        [UploadFile.mk [] "application/pdf" "big.pdf" (6 * 1024 * 1024)] 3 ≠ .ok out) ∧
    multerCheck [UploadFile.mk [] "text/plain" "a.txt" 12]
      = .ok [UploadFile.mk [] "text/plain" "a.txt" 12] := by
  have h := attachment_admission [UploadFile.mk [] "application/pdf" "big.pdf" (6 * 1024 * 1024)]
  have hbad := h.1 (Or.inr ⟨_, List.mem_singleton.2 rfl, by norm_num⟩)
  refine ⟨hbad.1, fun out => hbad.2.1 storeW "alice" "user" (some "c1") (some "hi") 3 out, ?_⟩
  exact (attachment_admission _).2 (by decide) (by
    intro f hf
    simp only [List.mem_singleton] at hf
    subst hf
    decide)

/-- C3: appending through the socket send path on an existing chat sets the
chat's `lastMessage` timestamp to the append time, appends the message at
the end of the log, and sets the open flag to `open || (sender ≠ admin)`:
a closed chat is reopened exactly when the sender is not an admin and stays
closed under an admin append; sending to a nonexistent chat fails with the
chat-not-found error, leaving the store unchanged. -/
theorem send_reopens_closed_chat
    (sstore : SStore) (u : SUser) (d : SMsgData) (now : Nat) (cid m oid : String)
    (chat : SChat)
    (hcid : d.chatId = some cid) (hcne : cid ≠ "")
    (hm : d.message = some m) (hmne : m ≠ "")
    (ho : d.orderId = some oid) (hone : oid ≠ "")
    (hfind : lookupKV sstore cid = some chat)
    (hauth : ¬(u.role ≠ "admin" ∧ chat.customerId ≠ u.id)) :
    (∃ chat', lookupKV (socketSendMessage sstore u d now).1 cid = some chat' ∧
       chat'.lastMessage = now ∧
       chat'.messages = chat.messages ++
         [{ senderId := u.id, senderRole := if u.role = "admin" then "admin" else "user",
            message := m, timestamp := now, read := false }] ∧
       chat'.openFlag = (if ¬chat.openFlag ∧ u.role ≠ "admin" then true else chat.openFlag) ∧
       (chat.openFlag = false → u.role ≠ "admin" → chat'.openFlag = true) ∧
       (chat.openFlag = false → u.role = "admin" → chat'.openFlag = false)) ∧
    (∀ (s2 : SStore) (cid2 : String) (u2 : SUser) (d2 : SMsgData) (now2 : Nat),
       lookupKV s2 cid2 = none → d2.chatId = some cid2 → cid2 ≠ "" →
       falsyS d2.message = false → falsyS d2.orderId = false →
       socketSendMessage s2 u2 d2 now2 = (s2, [SEvent.errorEvt "Chat not found"])) := by
  constructor
  · unfold socketSendMessage
    have hfr : ¬(falsyS d.chatId ∨ falsyS d.message ∨ falsyS d.orderId) := by
      simp [falsyS, hcid, hm, ho, hcne, hmne, hone]
    rw [if_neg hfr]
    simp only [hcid, hm, Option.getD_some]
    rw [hfind]
    dsimp only
    rw [if_neg hauth]
    refine ⟨_, lookupKV_saveKV_self sstore cid chat _ hfind, rfl, rfl, rfl, ?_, ?_⟩
    · intro h1 h2
      simp [h1, h2]
    · intro h1 h2
      simp [h1, h2]
  · intro s2 cid2 u2 d2 now2 hnone hc2 hcne2 hfm hfo
    unfold socketSendMessage
    have hfc2 : falsyS d2.chatId = false := by simp [falsyS, hc2, hcne2]
    have hfr : ¬(falsyS d2.chatId ∨ falsyS d2.message ∨ falsyS d2.orderId) := by
      simp [hfc2, hfm, hfo]
    rw [if_neg hfr]
    simp only [hc2, Option.getD_some]
    rw [hnone]

/-- Witness for C3: "alice" reopens her closed order chat, an admin append
leaves it closed, and a send to a missing chat errors out. -/
theorem send_reopens_closed_chat_witness :
    (∃ chat', lookupKV (socketSendMessage sstoreW
        { id := "alice", name := "Alice", role := "user" }
        { chatId := some "c1", message := some "hi", orderId := some "o1", customerId := none }
        6).1 "c1" = some chat' ∧
       chat'.lastMessage = 6 ∧
       chat'.messages = schatClosed.messages ++
         [{ senderId := "alice", senderRole := "user", message := "hi", timestamp := 6,
            read := false }] ∧
       chat'.openFlag = true) ∧
    (∃ chat', lookupKV (socketSendMessage sstoreW
        { id := "zed", name := "Zed", role := "admin" }
        { chatId := some "c1", message := some "ok", orderId := some "o1", customerId := none }
        7).1 "c1" = some chat' ∧ chat'.openFlag = false) ∧
    socketSendMessage [] { id := "alice", name := "Alice", role := "user" }
        { chatId := some "nope", message := some "hi", orderId := some "o1", customerId := none }
        8 = ([], [SEvent.errorEvt "Chat not found"]) := by
  refine ⟨?_, ?_, ?_⟩
  · obtain ⟨chat', h1, h2, h3, h4, h5, h6⟩ :=
      (send_reopens_closed_chat sstoreW
        { id := "alice", name := "Alice", role := "user" }
        { chatId := some "c1", message := some "hi", orderId := some "o1", customerId := none }
        6 "c1" "hi" "o1" schatClosed rfl (by decide) rfl (by decide) rfl (by decide)
        (by decide) (by decide)).1
    exact ⟨chat', h1, h2, h3, h5 rfl (by decide)⟩
  · obtain ⟨chat', h1, h2, h3, h4, h5, h6⟩ :=
      (send_reopens_closed_chat sstoreW
        { id := "zed", name := "Zed", role := "admin" }
        { chatId := some "c1", message := some "ok", orderId := some "o1", customerId := none }
        7 "c1" "ok" "o1" schatClosed rfl (by decide) rfl (by decide) rfl (by decide)
        (by decide) (by decide)).1
    exact ⟨chat', h1, h6 rfl rfl⟩
  · exact (send_reopens_closed_chat sstoreW
      { id := "alice", name := "Alice", role := "user" }
      { chatId := some "c1", message := some "hi", orderId := some "o1", customerId := none }
      6 "c1" "hi" "o1" schatClosed rfl (by decide) rfl (by decide) rfl (by decide)
      (by decide) (by decide)).2 [] "nope"
      { id := "alice", name := "Alice", role := "user" }
      { chatId := some "nope", message := some "hi", orderId := some "o1", customerId := none }
      8 rfl rfl (by decide) rfl rfl

/-- C2 counterexample: the socket server wired in index.ts registers no
handshake middleware, so the connection handler receives every transport
connection with no identity attached, and its `authenticate` event accepts
a client-claimed identity ("ghost") without consulting any credential or
account store — the connection reaches the authenticated state although no
bearer credential was ever presented or validated. -/
theorem handshake_counterexample :
    socketseverOnConnection.dataUser = { userId := none, role := none } ∧
    (socketseverAuthenticate socketseverOnConnection (some "ghost") (some "user") none none).2
      = [] ∧
    (socketseverAuthenticate socketseverOnConnection
        (some "ghost") (some "user") none none).1.dataUser
      = { userId := some "ghost", role := some "user" } := by
  decide

/-- C2 (amended): in the jwt-authenticated socket server the handshake
middleware rejects a missing, unverifiable, or unknown-account credential
with an explicit authentication error, and every accepted connection
carries the identity of an existing account resolved from a verified
token; the socketsever.ts variant wired in index.ts performs no handshake
authentication and accepts connections without a validated identity. -/
theorem handshake_requires_identity
    (users : List UserRec) (secret : String) (token : Option HandshakeToken) :
    (token = none → socketAuthMiddleware users secret token
        = .error "Authentication error: Token required") ∧
    (∀ tok, token = some tok → jwtVerify tok secret = none →
       socketAuthMiddleware users secret token
         = .error "Authentication error: Invalid token") ∧
    (∀ tok uid, token = some tok → jwtVerify tok secret = some uid →
       findUser users uid = none →
       socketAuthMiddleware users secret token
         = .error "Authentication error: User not found") ∧
    (∀ ident, socketAuthMiddleware users secret token = .ok ident →
       ∃ tok uid u, token = some tok ∧ jwtVerify tok secret = some uid ∧
         findUser users uid = some u ∧ ident.id = u.id ∧ ident.role = u.role) := by
  refine ⟨?_, ?_, ?_, ?_⟩
  · intro h
    subst h
    rfl
  · intro tok h hv
    subst h
    unfold socketAuthMiddleware
    dsimp only
    rw [hv]
  · intro tok uid h hv hu
    subst h
    unfold socketAuthMiddleware
    dsimp only
    rw [hv]
    dsimp only
    rw [hu]
  · intro ident h
    unfold socketAuthMiddleware at h
    cases token with
    | none => cases h
    | some tok =>
      dsimp only at h
      cases hv : jwtVerify tok secret with
      | none => rw [hv] at h; cases h
      | some uid =>
        rw [hv] at h
        dsimp only at h
        cases hu : findUser users uid with
        | none => rw [hu] at h; cases h
        | some u =>
          rw [hu] at h
          dsimp only at h
          injection h with h'
          exact ⟨tok, uid, u, rfl, hv, hu, by rw [← h'], by rw [← h']⟩

/-- Witness for C2 (amended): the three rejection cases and one accepted
connection resolving the account "u1". -/
theorem handshake_requires_identity_witness :
    socketAuthMiddleware [] "s" none = .error "Authentication error: Token required" ∧
    socketAuthMiddleware [UserRec.mk "u1" "Ann" "ann@y.z" "user"] "s"
        (some (HandshakeToken.valid "bad" "u1"))
      = .error "Authentication error: Invalid token" ∧
    socketAuthMiddleware [] "s" (some (HandshakeToken.valid "s" "ghost"))
      = .error "Authentication error: User not found" ∧
    (∃ tok uid u, some (HandshakeToken.valid "s" "u1") = some tok ∧
       jwtVerify tok "s" = some uid ∧
       findUser [UserRec.mk "u1" "Ann" "ann@y.z" "user"] uid = some u ∧
       (SUser.mk "u1" "Ann" "user").id = u.id ∧ (SUser.mk "u1" "Ann" "user").role = u.role) := by
  refine ⟨?_, ?_, ?_, ?_⟩
  · exact (handshake_requires_identity [] "s" none).1 rfl
  · exact (handshake_requires_identity [UserRec.mk "u1" "Ann" "ann@y.z" "user"] "s"
      (some (HandshakeToken.valid "bad" "u1"))).2.1 _ rfl (by decide)
  · exact (handshake_requires_identity [] "s"
      (some (HandshakeToken.valid "s" "ghost"))).2.2.1 _ "ghost" rfl (by decide) rfl
  · exact (handshake_requires_identity [UserRec.mk "u1" "Ann" "ann@y.z" "user"] "s"
      (some (HandshakeToken.valid "s" "u1"))).2.2.2 (SUser.mk "u1" "Ann" "user") rfl

theorem mem_roomMembers_joinRoom (rooms : RoomMap) (sid room : String) :
    sid ∈ roomMembers (joinRoom rooms sid room) room := by
  induction rooms with
  | nil => simp [joinRoom, roomMembers]
  | cons hd tl ih =>
    obtain ⟨s, rs⟩ := hd
    by_cases hs : s = sid
    · subst hs
      simp [joinRoom, roomMembers]
    · unfold joinRoom
      rw [if_neg hs]
      unfold roomMembers at ih ⊢
      simp only [List.filter_cons]
      by_cases hp : ((rs.any fun x => decide (x = room)) = true)
      · simp only [hp, if_true, List.map_cons]
        exact List.mem_cons_of_mem s ih
      · simp only [hp, if_false]
        exact ih

/-- C9: the join-chat / join-order-chat events perform no access-guard
check: for any authenticated socket and any chat or order id whatsoever
the join succeeds with no error event and the socket becomes a member of
the target room — even when the chat belongs to a different customer — so
it is a recipient of every subsequent broadcast addressed to that room. -/
theorem join_room_unguarded
    (rooms : RoomMap) (sid uid : String) (ud : GUserData) (chatId : String)
    (hauth : ud.userId = some uid) (hne : uid ≠ "") :
    joinChat rooms sid ud chatId = (joinRoom rooms sid ("chat-" ++ chatId), []) ∧
    sid ∈ roomMembers (joinChat rooms sid ud chatId).1 ("chat-" ++ chatId) ∧
    (∀ (store : ChatStore) (chat : Chat), findById store chatId = some chat →
       chat.customerId ≠ uid →
       sid ∈ broadcastAll (joinChat rooms sid ud chatId).1 ("chat-" ++ chatId)) ∧
    (∀ orderId : String, orderId ≠ "" →
       joinOrderChat rooms sid orderId = joinRoom rooms sid ("order-" ++ orderId) ∧
       sid ∈ roomMembers (joinOrderChat rooms sid orderId) ("order-" ++ orderId)) := by
  have hj : joinChat rooms sid ud chatId = (joinRoom rooms sid ("chat-" ++ chatId), []) := by
    unfold joinChat
    rw [if_neg (by simp [falsyS, hauth, hne])]
  refine ⟨hj, ?_, ?_, ?_⟩
  · rw [hj]
    exact mem_roomMembers_joinRoom rooms sid _
  · intro store chat hfind hne2
    rw [hj]
    exact mem_roomMembers_joinRoom rooms sid _
  · intro orderId hone
    have hjo : joinOrderChat rooms sid orderId = joinRoom rooms sid ("order-" ++ orderId) := by
      unfold joinOrderChat
      rw [if_neg hone]
    exact ⟨hjo, by rw [hjo]; exact mem_roomMembers_joinRoom rooms sid _⟩

/-- Witness for C9: the authenticated socket "s9" of user "bob" joins the
room of "alice"'s chat "c1" although `chat.customerId ≠ "bob"`, and becomes
a recipient of its broadcasts. -/
theorem join_room_unguarded_witness :
    joinChat [] "s9" { userId := some "bob", role := some "user" } "c1"
      = (joinRoom [] "s9" "chat-c1", []) ∧
    "s9" ∈ broadcastAll (joinChat [] "s9"
        { userId := some "bob", role := some "user" } "c1").1 "chat-c1" ∧
    "s9" ∈ roomMembers (joinOrderChat [] "s9" "o1") "order-o1" := by
  have h := join_room_unguarded [] "s9" "bob" { userId := some "bob", role := some "user" }
    "c1" rfl (by decide)
  exact ⟨h.1, h.2.2.1 storeW chatW (by decide) (by decide), (h.2.2.2 "o1" (by decide)).2⟩

theorem findById_upsertChat_self (s : ChatStore) (cid : String) (c : Chat) :
    findById (upsertChat s cid c) cid = some c := by
  unfold upsertChat
  cases hs : findById s cid with
  | none =>
    simp only [Option.isSome_none, Bool.false_eq_true, if_false]
    show lookupKV (s ++ [(cid, c)]) cid = some c
    rw [lookupKV_append_single_none s cid cid c hs]
    simp
  | some c0 =>
    simp only [Option.isSome_some, if_true]
    exact lookupKV_saveKV_self s cid c0 c hs

/-- C6 (amended): on every persisting send path the `new-message` broadcast
is emitted strictly after the save of the chat document — the effect trace
is the save first, the emit second — and the broadcast message is the last
message of the persisted log; the socketsever.ts `new-message` handler
instead relays client content with no persistence at all (see the
counterexample). -/
theorem commit_before_broadcast :
    (∀ (s : ChatStore) (uid role cid : String) (content : Option String)
       (files : List UploadFile) (now : Nat) (store' : ChatStore) (tr : List TraceEvent),
       sendMessageToChatById s uid role (some cid) content files now = .ok (store', tr) →
       ∃ chat' msg,
         tr = [TraceEvent.saveEvt cid chat',
               TraceEvent.newMessageEvt (roomNameOf cid chat') msg.sender msg.content
                 msg.timestamp] ∧
         findById store' cid = some chat' ∧
         chat'.messages.getLast? = some msg) ∧
    (∀ (s : ChatStore) (orders : OrderStore) (uid role : String)
       (orderId content : Option String) (freshId : String) (now : Nat)
       (store' : ChatStore) (tr : List TraceEvent),
       sendMessage s orders uid role orderId content freshId now = .ok (store', tr) →
       ∃ cid chat' msg,
         tr = [TraceEvent.saveEvt cid chat',
               TraceEvent.newMessageEvt ("order-" ++ orderId.getD "") msg.sender msg.content
                 msg.timestamp] ∧
         findById store' cid = some chat' ∧
         chat'.messages.getLast? = some msg) ∧
    (∀ (s : ChatStore) (orders : OrderStore) (uid role : String)
       (orderId content : Option String) (files : List UploadFile) (freshId : String)
       (now : Nat) (store' : ChatStore) (tr : List TraceEvent),
       sendMessageWithAttachment s orders uid role orderId content files freshId now
         = .ok (store', tr) →
       ∃ cid chat' msg,
         tr = [TraceEvent.saveEvt cid chat',
               TraceEvent.newMessageEvt ("order-" ++ orderId.getD "") msg.sender msg.content
                 msg.timestamp] ∧
         findById store' cid = some chat' ∧
         chat'.messages.getLast? = some msg) ∧
    (∀ (s : SStore) (u : SUser) (d : SMsgData) (now : Nat) (cid m oid : String)
       (chat : SChat),
       d.chatId = some cid → cid ≠ "" → d.message = some m → m ≠ "" →
       d.orderId = some oid → oid ≠ "" →
       lookupKV s cid = some chat → ¬(u.role ≠ "admin" ∧ chat.customerId ≠ u.id) →
       ∃ chat' rest,
         (socketSendMessage s u d now).2
           = SEvent.saveEvt cid chat'
             :: SEvent.newMessageEvt ("order-" ++ oid) cid m u.id u.role :: rest ∧
         lookupKV (socketSendMessage s u d now).1 cid = some chat' ∧
         chat'.messages.getLast?
           = some { senderId := u.id,
                    senderRole := if u.role = "admin" then "admin" else "user",
                    message := m, timestamp := now, read := false }) := by
  refine ⟨?_, ?_, ?_, ?_⟩
  · intro s uid role cid content files now store' tr h
    obtain ⟨cid0, chat, chat', msg, hc, hfind, -, hext, hr1, hr2⟩ :=
      sendMessageToChatById_ok_shape h
    injection hc with hc'
    subst hc'
    refine ⟨chat', msg, hr2, ?_, ?_⟩
    · show findById store' cid = some chat'
      have : store' = saveKV s cid chat' := hr1
      rw [this]
      exact lookupKV_saveKV_self s cid chat chat' hfind
    · rw [hext]
      exact List.getLast?_concat _
  · intro s orders uid role orderId content freshId now store' tr h
    obtain ⟨cid, chat, chat', msg, -, -, hext, hr1, hr2⟩ := sendMessage_ok_shape h
    refine ⟨cid, chat', msg, hr2, ?_, ?_⟩
    · show findById store' cid = some chat'
      have : store' = upsertChat s cid chat' := hr1
      rw [this]
      exact findById_upsertChat_self s cid chat'
    · rw [hext]
      exact List.getLast?_concat _
  · intro s orders uid role orderId content files freshId now store' tr h
    obtain ⟨cid, chat, chat', msg, -, -, hext, hr1, hr2⟩ :=
      sendMessageWithAttachment_ok_shape h
    refine ⟨cid, chat', msg, hr2, ?_, ?_⟩
    · show findById store' cid = some chat'
      have : store' = upsertChat s cid chat' := hr1
      rw [this]
      exact findById_upsertChat_self s cid chat'
    · rw [hext]
      exact List.getLast?_concat _
  · intro s u d now cid m oid chat hcid hcne hm hmne ho hone hfind hauth
    unfold socketSendMessage
    have hfr : ¬(falsyS d.chatId ∨ falsyS d.message ∨ falsyS d.orderId) := by
      simp [falsyS, hcid, hm, ho, hcne, hmne, hone]
    rw [if_neg hfr]
    simp only [hcid, hm, ho, Option.getD_some]
    rw [hfind]
    dsimp only
    rw [if_neg hauth]
    refine ⟨_, _, rfl, lookupKV_saveKV_self s cid chat _ hfind, ?_⟩
    exact List.getLast?_concat _

/-- C6 counterexample: the socketsever.ts `new-message` handler is a pure
relay. At this concrete input the subscriber "s2" receives a `new-message`
event whose content appears in no chat of the persisted store (here the
store is empty and the handler takes no store at all), contradicting the
claim that no such execution exists. -/
theorem broadcast_unpersisted_counterexample :
    ("s2", "ghost-message") ∈ relayNewMessage
        [("s1", ["order-o1"]), ("s2", ["order-o1"])]
        { userId := some "u1", role := some "user" }
        { chatId := none, orderId := some "o1", content := "ghost-message" } ∧
    chatStoreHasContent [] "ghost-message" = false := by
  decide

theorem markReadUpdate_eq_iff (msgs : List SMessage) (mark : String) :
    markReadUpdate msgs mark = msgs ↔ countUnreadFrom msgs mark = 0 := by
  induction msgs with
  | nil => simp [markReadUpdate, countUnreadFrom]
  | cons m rest ih =>
    by_cases hc : m.senderRole = mark ∧ m.read = false
    · have hne : markReadUpdate (m :: rest) mark ≠ m :: rest := by
        simp only [markReadUpdate, List.map_cons, if_pos hc]
        intro h
        injection h with h1 h2
        have h3 : (true : Bool) = m.read := congrArg SMessage.read h1
        rw [hc.2] at h3
        cases h3
      have hcount : countUnreadFrom (m :: rest) mark ≠ 0 := by
        simp only [countUnreadFrom, List.filter_cons]
        rw [if_pos (by simpa using hc)]
        simp
      exact ⟨fun h => absurd h hne, fun h => absurd h hcount⟩
    · rw [show markReadUpdate (m :: rest) mark = m :: markReadUpdate rest mark from by
        simp [markReadUpdate, if_neg hc]]
      rw [show countUnreadFrom (m :: rest) mark = countUnreadFrom rest mark from by
        simp only [countUnreadFrom, List.filter_cons]
        rw [if_neg (by simpa using hc)]]
      constructor
      · intro h
        injection h with h1 h2
        exact ih.1 h2
      · intro h
        rw [ih.2 h]

theorem countUnreadFrom_markReadUpdate (msgs : List SMessage) (mark : String) :
    countUnreadFrom (markReadUpdate msgs mark) mark = 0 := by
  induction msgs with
  | nil => rfl
  | cons m rest ih =>
    by_cases hc : m.senderRole = mark ∧ m.read = false
    · rw [show markReadUpdate (m :: rest) mark
          = { m with read := true } :: markReadUpdate rest mark from by
        simp [markReadUpdate, if_pos hc]]
      rw [show countUnreadFrom ({ m with read := true } :: markReadUpdate rest mark) mark
          = countUnreadFrom (markReadUpdate rest mark) mark from by
        simp only [countUnreadFrom, List.filter_cons]
        rw [if_neg (by simp)]]
      exact ih
    · rw [show markReadUpdate (m :: rest) mark = m :: markReadUpdate rest mark from by
        simp [markReadUpdate, if_neg hc]]
      rw [show countUnreadFrom (m :: markReadUpdate rest mark) mark
          = countUnreadFrom (markReadUpdate rest mark) mark from by
        simp only [countUnreadFrom, List.filter_cons]
        rw [if_neg (by simpa using hc)]]
      exact ih

theorem markReadUpdate_get (msgs : List SMessage) (mark : String) (i : Nat)
    (h1 : i < msgs.length) (h2 : i < (markReadUpdate msgs mark).length) :
    (((markReadUpdate msgs mark).get ⟨i, h2⟩).senderId = (msgs.get ⟨i, h1⟩).senderId ∧
     ((markReadUpdate msgs mark).get ⟨i, h2⟩).senderRole = (msgs.get ⟨i, h1⟩).senderRole ∧
     ((markReadUpdate msgs mark).get ⟨i, h2⟩).message = (msgs.get ⟨i, h1⟩).message ∧
     ((markReadUpdate msgs mark).get ⟨i, h2⟩).timestamp = (msgs.get ⟨i, h1⟩).timestamp) ∧
    (((markReadUpdate msgs mark).get ⟨i, h2⟩).read = true ↔
       ((msgs.get ⟨i, h1⟩).read = true ∨ (msgs.get ⟨i, h1⟩).senderRole = mark)) := by
  have hg : (markReadUpdate msgs mark).get ⟨i, h2⟩
      = if (msgs.get ⟨i, h1⟩).senderRole = mark ∧ (msgs.get ⟨i, h1⟩).read = false
        then { msgs.get ⟨i, h1⟩ with read := true } else msgs.get ⟨i, h1⟩ := by
    unfold markReadUpdate
    rw [List.get_eq_getElem, List.get_eq_getElem, List.getElem_map]
  rw [hg]
  by_cases hc : (msgs.get ⟨i, h1⟩).senderRole = mark ∧ (msgs.get ⟨i, h1⟩).read = false
  · rw [if_pos hc]
    exact ⟨⟨rfl, rfl, rfl, rfl⟩, fun _ => Or.inr hc.1, fun _ => rfl⟩
  · rw [if_neg hc]
    refine ⟨⟨rfl, rfl, rfl, rfl⟩, ?_, ?_⟩
    · exact Or.inl
    · intro h
      cases h with
      | inl h => exact h
      | inr h =>
        cases hb : (msgs.get ⟨i, h1⟩).read with
        | false => exact absurd ⟨h, hb⟩ hc
        | true => rfl

instance {e a : Type} [DecidableEq e] [DecidableEq a] : DecidableEq (Except e a) := fun x y =>
  match x, y with
  | .ok v, .ok w =>
      if h : v = w then .isTrue (by rw [h])
      else .isFalse (by intro hc; injection hc with hc'; exact h hc')
  | .error v, .error w =>
      if h : v = w then .isTrue (by rw [h])
      else .isFalse (by intro hc; injection hc with hc'; exact h hc')
  | .ok _, .error _ => .isFalse (by intro hc; cases hc)
  | .error _, .ok _ => .isFalse (by intro hc; cases hc)

/-- Witness for C6 (amended): a concrete send on "alice"'s chat yields the
save-then-emit trace with the emitted message last in the persisted log,
and likewise on the socket path and on the attachment path. -/
theorem commit_before_broadcast_witness :
    (∃ chat' msg,
       [TraceEvent.saveEvt "c1" (Chat.mk "alice" none none (some "General Inquiry") false
          [Message.mk Sender.admin "hello" 1 false [], Message.mk Sender.user "hi" 5 false []]
          5),
        TraceEvent.newMessageEvt "chat-c1" Sender.user "hi" 5]
         = [TraceEvent.saveEvt "c1" chat',
            TraceEvent.newMessageEvt (roomNameOf "c1" chat') msg.sender msg.content
              msg.timestamp] ∧
       findById [("c1", Chat.mk "alice" none none (some "General Inquiry") false
          [Message.mk Sender.admin "hello" 1 false [], Message.mk Sender.user "hi" 5 false []]
          5)] "c1" = some chat' ∧
       chat'.messages.getLast? = some msg) ∧
    (∃ chat' rest,
       (socketSendMessage sstoreW (SUser.mk "alice" "Alice" "user")
           (SMsgData.mk (some "c1") (some "yo") (some "o1") none) 5).2
         = SEvent.saveEvt "c1" chat'
           :: SEvent.newMessageEvt "order-o1" "c1" "yo" "alice" "user" :: rest ∧
       lookupKV (socketSendMessage sstoreW (SUser.mk "alice" "Alice" "user")
           (SMsgData.mk (some "c1") (some "yo") (some "o1") none) 5).1 "c1" = some chat' ∧
       chat'.messages.getLast? = some (SMessage.mk "alice" "user" "yo" 5 false)) ∧
    (∃ cid chat' msg,
       [TraceEvent.saveEvt "f9" (Chat.mk "alice" none (some "o1") none true
          [Message.mk Sender.user "hi" 6 false []] 6),
        TraceEvent.newMessageEvt "order-o1" Sender.user "hi" 6]
         = [TraceEvent.saveEvt cid chat',
            TraceEvent.newMessageEvt ("order-" ++ (some "o1").getD "") msg.sender msg.content
              msg.timestamp] ∧
       findById [("c1", chatW), ("f9", Chat.mk "alice" none (some "o1") none true
          [Message.mk Sender.user "hi" 6 false []] 6)] cid = some chat' ∧
       chat'.messages.getLast? = some msg) := by
  refine ⟨?_, ?_, ?_⟩
  · exact commit_before_broadcast.1 storeW "alice" "user" "c1" (some "hi") [] 5 _ _ (by decide)
  · exact commit_before_broadcast.2.2.2 sstoreW (SUser.mk "alice" "Alice" "user")
      (SMsgData.mk (some "c1") (some "yo") (some "o1") none) 5 "c1" "yo" "o1" schatClosed
      rfl (by decide) rfl (by decide) rfl (by decide) (by decide) (by decide)
  · exact commit_before_broadcast.2.2.1 storeW ordersW "alice" "user" (some "o1") (some "hi")
      [] "f9" 6 _ _ (by decide)

/-- C8 (amended): the jwt socket server's typing handler persists nothing
and relays the indicator to exactly the other members of the order room,
never back to the sending socket; the socketsever.ts typing handler also
persists nothing but relays via `io.to`, which includes the sending socket
whenever it is a member of the target room (see the counterexample). -/
theorem typing_relay
    (store : SStore) (rooms : RoomMap) (sid : String) (d : TypingData)
    (hc : falsyS d.chatId = false) (ho : falsyS d.orderId = false) :
    (socketTyping store rooms sid d).1 = store ∧
    sid ∉ (socketTyping store rooms sid d).2 ∧
    (∀ x, x ∈ (socketTyping store rooms sid d).2 ↔
       x ∈ roomMembers rooms ("order-" ++ d.orderId.getD "") ∧ x ≠ sid) ∧
    (∀ (astore : ChatStore) (sid2 : String) (sender : GUserData) (d2 : TypingData),
       (socketseverTyping astore rooms sid2 sender d2).1 = astore) := by
  have hfr : ¬(falsyS d.chatId ∨ falsyS d.orderId) := by simp [hc, ho]
  have hst : socketTyping store rooms sid d
      = (store, broadcastExceptSender rooms ("order-" ++ d.orderId.getD "") sid) := by
    unfold socketTyping
    rw [if_neg hfr]
  refine ⟨by rw [hst], ?_, ?_, ?_⟩
  · rw [hst]
    dsimp only
    unfold broadcastExceptSender
    intro hmem
    have h := List.mem_filter.1 hmem
    simp at h
  · intro x
    rw [hst]
    dsimp only
    unfold broadcastExceptSender
    rw [List.mem_filter]
    simp
  · intro astore sid2 sender d2
    unfold socketseverTyping
    split
    · rfl
    · split
      · rfl
      · split
        · rfl
        · rfl

/-- Witness for C8 (amended): concrete room with two members — the sender
"s1" gets nothing back, the other member "s2" gets the relay, the store is
untouched. -/
theorem typing_relay_witness :
    (socketTyping sstoreW [("s1", ["order-o1"]), ("s2", ["order-o1"])] "s1"
        (TypingData.mk (some "c1") (some "o1") true)).1 = sstoreW ∧
    "s1" ∉ (socketTyping sstoreW [("s1", ["order-o1"]), ("s2", ["order-o1"])] "s1"
        (TypingData.mk (some "c1") (some "o1") true)).2 ∧
    "s2" ∈ (socketTyping sstoreW [("s1", ["order-o1"]), ("s2", ["order-o1"])] "s1"
        (TypingData.mk (some "c1") (some "o1") true)).2 := by
  have h := typing_relay sstoreW [("s1", ["order-o1"]), ("s2", ["order-o1"])] "s1"
    (TypingData.mk (some "c1") (some "o1") true) (by decide) (by decide)
  exact ⟨h.1, h.2.1, (h.2.2.1 "s2").2 ⟨by decide, by decide⟩⟩

/-- C8 counterexample: the socketsever.ts typing handler relays with
`io.to`: at this concrete input the sending socket "s1", a member of the
chat room, receives its own typing indicator back (the claim says it never
does); the store is nonetheless untouched. -/
theorem typing_echo_counterexample :
    (socketseverTyping [] [("s1", ["chat-c1"]), ("s2", ["chat-c1"])] "s1"
        (GUserData.mk (some "u1") (some "user"))
        (TypingData.mk (some "c1") none true)).2 = ["s1", "s2"] ∧
    "s1" ∈ (socketseverTyping [] [("s1", ["chat-c1"]), ("s2", ["chat-c1"])] "s1"
        (GUserData.mk (some "u1") (some "user"))
        (TypingData.mk (some "c1") none true)).2 ∧
    (socketseverTyping [] [("s1", ["chat-c1"]), ("s2", ["chat-c1"])] "s1"
        (GUserData.mk (some "u1") (some "user"))
        (TypingData.mk (some "c1") none true)).1 = [] := by
  decide

/-- An order chat with two unread admin messages, for the C4 input. -/
def schatUnread : SChat :=
  SChat.mk "o1" "alice"
    [SMessage.mk "a9" "admin" "hi" 1 false, SMessage.mk "a9" "admin" "again" 2 false] 2 true

/-- C4 counterexample: on a chat with two unread admin messages the
customer's mark-as-read flips both messages, yet the count the code
computes — mongo's document-level `modifiedCount` from `updateOne` — is 1,
not 2: mark-as-read does not return the number of messages flipped. -/
theorem markread_count_counterexample :
    countUnreadFrom schatUnread.messages "admin" = 2 ∧
    (updateOneMarkRead [("c1", schatUnread)] "c1" "admin").2 = 1 ∧
    lookupKV (updateOneMarkRead [("c1", schatUnread)] "c1" "admin").1 "c1"
      = some (SChat.mk "o1" "alice"
          [SMessage.mk "a9" "admin" "hi" 1 true, SMessage.mk "a9" "admin" "again" 2 true]
          2 true) ∧
    (1 : Nat) ≠ 2 := by
  decide
theorem all_read_of_countUnreadFrom_eq_zero {msgs : List SMessage} {mark : String}
    (h : countUnreadFrom msgs mark = 0) :
    ∀ m ∈ msgs, m.senderRole = mark → m.read = true := by
  intro m hm hrole
  unfold countUnreadFrom at h
  have hnil := List.length_eq_zero.1 h
  have h2 := List.filter_eq_nil_iff.1 hnil m hm
  simp only [decide_eq_true_eq] at h2
  cases hb : m.read with
  | false => exact absurd ⟨hrole, hb⟩ h2
  | true => rfl

/-- C4 (amended): mark-as-read sets `read := true` on exactly the unread
messages whose sender is the opposite role — every other field and every
other message is unchanged — succeeds with a `marked-read` ack even when
nothing flips, and is idempotent: the second consecutive call leaves the
store unchanged, broadcasts nothing and still acks success. The modified
count the code computes is mongo's document-level indicator (1 if at least
one message flipped, else 0), not the per-message flip count. -/
theorem markread_exact_idempotent
    (sstore : SStore) (u : SUser) (cid : String) (chat : SChat)
    (hcne : cid ≠ "") (hfind : lookupKV sstore cid = some chat)
    (hauth : ¬(u.role ≠ "admin" ∧ chat.customerId ≠ u.id)) :
    ∃ chat',
      lookupKV (socketMarkAsRead sstore u (some cid)).1 cid = some chat' ∧
      chat'.customerId = chat.customerId ∧
      chat'.messages
        = markReadUpdate chat.messages (if u.role = "admin" then "user" else "admin") ∧
      chat'.messages.length = chat.messages.length ∧
      (∀ i (h1 : i < chat.messages.length) (h2 : i < chat'.messages.length),
         ((chat'.messages.get ⟨i, h2⟩).senderId = (chat.messages.get ⟨i, h1⟩).senderId ∧
          (chat'.messages.get ⟨i, h2⟩).senderRole = (chat.messages.get ⟨i, h1⟩).senderRole ∧
          (chat'.messages.get ⟨i, h2⟩).message = (chat.messages.get ⟨i, h1⟩).message ∧
          (chat'.messages.get ⟨i, h2⟩).timestamp = (chat.messages.get ⟨i, h1⟩).timestamp) ∧
         ((chat'.messages.get ⟨i, h2⟩).read = true ↔
            ((chat.messages.get ⟨i, h1⟩).read = true ∨
             (chat.messages.get ⟨i, h1⟩).senderRole
               = (if u.role = "admin" then "user" else "admin")))) ∧
      countUnreadFrom chat'.messages (if u.role = "admin" then "user" else "admin") = 0 ∧
      (updateOneMarkRead sstore cid (if u.role = "admin" then "user" else "admin")).2
        = (if 0 < countUnreadFrom chat.messages (if u.role = "admin" then "user" else "admin")
           then 1 else 0) ∧
      (socketMarkAsRead sstore u (some cid)).2.getLast? = some (SEvent.markedReadEvt cid) ∧
      socketMarkAsRead (socketMarkAsRead sstore u (some cid)).1 u (some cid)
        = ((socketMarkAsRead sstore u (some cid)).1, [SEvent.markedReadEvt cid]) := by
  set mark := (if u.role = "admin" then "user" else "admin") with hmark
  have hrm : ∀ (s2 : SStore) (c2 : SChat), lookupKV s2 cid = some c2 →
      ¬(u.role ≠ "admin" ∧ c2.customerId ≠ u.id) →
      socketMarkAsRead s2 u (some cid)
        = ((updateOneMarkRead s2 cid mark).1,
           (if (updateOneMarkRead s2 cid mark).2 > 0
            then [SEvent.messagesReadEvt ("order-" ++ c2.orderId)] else [])
           ++ [SEvent.markedReadEvt cid]) := by
    intro s2 c2 hf2 ha2
    unfold socketMarkAsRead
    rw [if_neg (by simp [falsyS, hcne])]
    simp only [Option.getD_some]
    rw [hf2]
    dsimp only
    rw [if_neg ha2, ← hmark]
  by_cases hflip : markReadUpdate chat.messages mark = chat.messages
  · have hupd : updateOneMarkRead sstore cid mark = (sstore, 0) := by
      unfold updateOneMarkRead
      rw [hfind]
      dsimp only
      rw [if_pos hflip]
    have hcount0 : countUnreadFrom chat.messages mark = 0 :=
      (markReadUpdate_eq_iff _ _).1 hflip
    refine ⟨chat, ?_, rfl, hflip.symm, ?_, ?_, ?_, ?_, ?_, ?_⟩
    · rw [hrm sstore chat hfind hauth, hupd]
      exact hfind
    · rfl
    · intro i h1 h2
      refine ⟨⟨rfl, rfl, rfl, rfl⟩, ?_, ?_⟩
      · exact Or.inl
      · intro hor
        cases hor with
        | inl h => exact h
        | inr h =>
          exact all_read_of_countUnreadFrom_eq_zero hcount0 _
            (List.get_mem chat.messages i h1) h
    · exact hcount0
    · rw [hupd, hcount0]
      rfl
    · rw [hrm sstore chat hfind hauth, hupd]
      rfl
    · rw [hrm sstore chat hfind hauth, hupd]
      dsimp only
      rw [hrm sstore chat hfind hauth, hupd]
      simp
  · have hupd : updateOneMarkRead sstore cid mark
        = (saveKV sstore cid { chat with messages := markReadUpdate chat.messages mark }, 1) := by
      unfold updateOneMarkRead
      rw [hfind]
      dsimp only
      rw [if_neg hflip]
    have hcountpos : countUnreadFrom chat.messages mark ≠ 0 := by
      intro h
      exact hflip ((markReadUpdate_eq_iff _ _).2 h)
    have hlk : lookupKV (saveKV sstore cid
        { chat with messages := markReadUpdate chat.messages mark }) cid
        = some { chat with messages := markReadUpdate chat.messages mark } :=
      lookupKV_saveKV_self sstore cid chat _ hfind
    have hsecond : socketMarkAsRead (socketMarkAsRead sstore u (some cid)).1 u (some cid)
        = ((socketMarkAsRead sstore u (some cid)).1, [SEvent.markedReadEvt cid]) := by
      rw [hrm sstore chat hfind hauth, hupd]
      dsimp only
      rw [hrm _ _ hlk hauth]
      have hupd2 : updateOneMarkRead (saveKV sstore cid
          { chat with messages := markReadUpdate chat.messages mark }) cid mark
          = (saveKV sstore cid { chat with messages := markReadUpdate chat.messages mark }, 0) := by
        unfold updateOneMarkRead
        rw [hlk]
        dsimp only
        rw [if_pos ((markReadUpdate_eq_iff _ _).2 (countUnreadFrom_markReadUpdate _ _))]
      rw [hupd2]
      simp
    refine ⟨{ chat with messages := markReadUpdate chat.messages mark },
      ?_, rfl, rfl, ?_, ?_, ?_, ?_, ?_, hsecond⟩
    · rw [hrm sstore chat hfind hauth, hupd]
      exact hlk
    · show (markReadUpdate chat.messages mark).length = chat.messages.length
      unfold markReadUpdate
      exact List.length_map _ _
    · intro i h1 h2
      exact markReadUpdate_get chat.messages mark i h1 h2
    · exact countUnreadFrom_markReadUpdate _ _
    · rw [hupd]
      rw [if_pos (Nat.pos_of_ne_zero hcountpos)]
    · rw [hrm sstore chat hfind hauth, hupd]
      dsimp only
      exact List.getLast?_concat _

/-- Witness for C4 (amended): the customer "alice" marks her chat with two
unread admin messages; both flip, the ack is emitted, and the second call
is a no-op reporting nothing modified. -/
theorem markread_exact_idempotent_witness :
    ∃ chat',
      lookupKV (socketMarkAsRead [("c1", schatUnread)] (SUser.mk "alice" "Alice" "user")
          (some "c1")).1 "c1" = some chat' ∧
      chat'.customerId = schatUnread.customerId ∧
      chat'.messages = markReadUpdate schatUnread.messages
        (if (SUser.mk "alice" "Alice" "user").role = "admin" then "user" else "admin") ∧
      chat'.messages.length = schatUnread.messages.length ∧
      (∀ i (h1 : i < schatUnread.messages.length) (h2 : i < chat'.messages.length),
         ((chat'.messages.get ⟨i, h2⟩).senderId
            = (schatUnread.messages.get ⟨i, h1⟩).senderId ∧
          (chat'.messages.get ⟨i, h2⟩).senderRole
            = (schatUnread.messages.get ⟨i, h1⟩).senderRole ∧
          (chat'.messages.get ⟨i, h2⟩).message
            = (schatUnread.messages.get ⟨i, h1⟩).message ∧
          (chat'.messages.get ⟨i, h2⟩).timestamp
            = (schatUnread.messages.get ⟨i, h1⟩).timestamp) ∧
         ((chat'.messages.get ⟨i, h2⟩).read = true ↔
            ((schatUnread.messages.get ⟨i, h1⟩).read = true ∨
             (schatUnread.messages.get ⟨i, h1⟩).senderRole
               = (if (SUser.mk "alice" "Alice" "user").role = "admin" then "user"
                  else "admin")))) ∧
      countUnreadFrom chat'.messages
        (if (SUser.mk "alice" "Alice" "user").role = "admin" then "user" else "admin") = 0 ∧
      (updateOneMarkRead [("c1", schatUnread)] "c1"
          (if (SUser.mk "alice" "Alice" "user").role = "admin" then "user" else "admin")).2
        = (if 0 < countUnreadFrom schatUnread.messages
              (if (SUser.mk "alice" "Alice" "user").role = "admin" then "user" else "admin")
           then 1 else 0) ∧
      (socketMarkAsRead [("c1", schatUnread)] (SUser.mk "alice" "Alice" "user")
          (some "c1")).2.getLast? = some (SEvent.markedReadEvt "c1") ∧
      socketMarkAsRead (socketMarkAsRead [("c1", schatUnread)]
          (SUser.mk "alice" "Alice" "user") (some "c1")).1
          (SUser.mk "alice" "Alice" "user") (some "c1")
        = ((socketMarkAsRead [("c1", schatUnread)] (SUser.mk "alice" "Alice" "user")
            (some "c1")).1, [SEvent.markedReadEvt "c1"]) :=
  markread_exact_idempotent [("c1", schatUnread)] (SUser.mk "alice" "Alice" "user") "c1"
    schatUnread (by decide) (by decide) (by decide)
